import Mathlib

/-!
Shallow embedding of the rule-evaluation core of the repository
(`provider/rule_engine.py`, `provider/data_resolver.py`,
`provider/error_handler.py`) together with theorems checking the frozen
claims of the specification against it.

Modelling conventions:
* Python values are modelled by the inductive type `Val` (JSON-like data:
  `None`, booleans, integers, strings, lists and string-keyed dicts).
  Floats only arise in this code base from the opportunistic string
  coercion of the `local` data source; they are modelled as an opaque
  literal-carrying constructor `Val.pyFloat` (no float arithmetic is
  exercised by any claim).  Python dicts are modelled as insertion-ordered
  association lists with string keys; a requirement whose `name` value is
  not a string cannot be bound in such a context and its binding is
  dropped (no claim involves non-string requirement names).
* Python exceptions are modelled by `PyExn` (an exception-class tag plus
  the `str(e)` message).  Fallible code returns `Except PyExn`.
* External effects (the SQLite/PostgreSQL/MySQL drivers, HTTP requests,
  and the `eval` call of the custom-expression sandbox) are modelled as
  oracle functions bundled in `Engine`; everything around them (argument
  preparation, result normalisation, error classification and wrapping)
  is translated from the source.
-/

namespace RuleSpec

/-- Model of the Python/JSON values flowing through the rule engine. -/
inductive Val where
  | none : Val
  | bool (b : Bool) : Val
  | int (n : Int) : Val
  | pyFloat (lit : String) : Val
  | str (s : String) : Val
  | list (xs : List Val) : Val
  | dict (kvs : List (String × Val)) : Val
deriving Repr

/-- Python type name of a value, as used in runtime error messages. -/
def Val.typeName : Val → String
  | .none => "NoneType"
  | .bool _ => "bool"
  | .int _ => "int"
  | .pyFloat _ => "float"
  | .str _ => "str"
  | .list _ => "list"
  | .dict _ => "dict"

/-- A single-quote character, built by code point for use inside message
strings. -/
def sq : String :=
  String.singleton (Char.ofNat 39)

/-- The `AttributeError` message for a missing attribute. -/
def noAttrMsg (v : Val) (attr : String) : String :=
  sq ++ v.typeName ++ sq ++ " object has no attribute " ++ sq ++ attr ++ sq

/-- Python default whitespace for `str.strip()`. -/
def pyIsSpace (c : Char) : Bool :=
  c == ' ' || c == '\t' || c == '\n' || c == '\r' || c == '\x0b' || c == '\x0c'

/-- ASCII lower-casing of one character (the keywords this code
lower-cases are ASCII). -/
def charLower (c : Char) : Char :=
  if 65 ≤ c.toNat && c.toNat ≤ 90 then Char.ofNat (c.toNat + 32) else c

/-- `s.lower()` (ASCII). -/
def strLower (s : String) : String :=
  String.mk (s.data.map charLower)

/-- `s.strip()`. -/
def strTrim (s : String) : String :=
  String.mk (((s.data.dropWhile pyIsSpace).reverse.dropWhile pyIsSpace).reverse)

/-- `s.startswith(pre)`. -/
def strStartsWith (s pre : String) : Bool :=
  List.isPrefixOf pre.data s.data

/-- `s.endswith(suf)`. -/
def strEndsWith (s suf : String) : Bool :=
  List.isPrefixOf suf.data.reverse s.data.reverse

/-- Drop the first `n` characters. -/
def strDrop (s : String) (n : Nat) : String :=
  String.mk (s.data.drop n)

/-- `s.replace(pat, sub)`: all non-overlapping occurrences, left to
right (patterns used here are non-empty). -/
def replaceAllChars (hay pat sub : List Char) : List Char :=
  match hay with
  | [] => []
  | c :: rest =>
      if h : (!pat.isEmpty && List.isPrefixOf pat (c :: rest)) = true then
        sub ++ replaceAllChars ((c :: rest).drop pat.length) pat sub
      else c :: replaceAllChars rest pat sub
termination_by hay.length
decreasing_by
  all_goals simp_wf
  simp only [Bool.and_eq_true, Bool.not_eq_true] at h
  cases pat with
  | nil => simp at h
  | cons p ps => simp [List.length_drop] <;> omega

def strReplace (s pat sub : String) : String :=
  String.mk (replaceAllChars s.data pat.data sub.data)

/-- Whether a float literal produced by `float(...)` denotes zero: every
digit of its mantissa is `0` (good enough for truthiness of the literals
this code can produce; no claim exercises float truthiness). -/
def zeroFloatLit (s : String) : Bool :=
  (s.toList.filter (fun c => c.isDigit)).all (fun c => c == '0')

/-- Python truthiness (`bool(x)`). -/
def Val.truthy : Val → Bool
  | .none => false
  | .bool b => b
  | .int n => n != 0
  | .pyFloat s => !(zeroFloatLit s)
  | .str s => s != ""
  | .list xs => !xs.isEmpty
  | .dict kvs => !kvs.isEmpty

/-- Dict lookup (`d[k]` / `d.get(k)` on our string-keyed dict model):
first matching entry wins. -/
def dGet? : List (String × Val) → String → Option Val
  | [], _ => Option.none
  | (k0, v) :: rest, k => if k0 == k then some v else dGet? rest k

/-- `k in d` for a dict. -/
def dHas (kvs : List (String × Val)) (k : String) : Bool :=
  (dGet? kvs k).isSome

/-- Dict assignment `d[k] = v`: replaces the first matching entry in
place, otherwise appends (Python dicts keep insertion order). -/
def dSet (kvs : List (String × Val)) (k : String) (v : Val) :
    List (String × Val) :=
  match kvs with
  | [] => [(k, v)]
  | (k0, v0) :: rest =>
      if k0 == k then (k0, v) :: rest else (k0, v0) :: dSet rest k v

/-- Evaluation context: a Python dict of string keys (the engine only ever
binds string keys into it). -/
abbrev Ctx := List (String × Val)

/-- `d.get(k, default)` on a dict value. -/
def dGetD (kvs : List (String × Val)) (k : String) (default : Val) : Val :=
  (dGet? kvs k).getD default

/-- Exception classes distinguished by the source's `except` clauses. -/
inductive ExnKind where
  | typeError
  | attributeError
  | indexError
  | nameError
  | keyError
  | valueError
  | sqliteError
  | generic
deriving Repr, DecidableEq

/-- A raised Python exception: its class tag and its `str(e)` message. -/
structure PyExn where
  kind : ExnKind
  msg : String
deriving Repr, DecidableEq

theorem dGet?_sizeOf {kvs : List (String × Val)} {k : String} {v : Val}
    (h : dGet? kvs k = some v) : sizeOf v < sizeOf kvs := by
  induction kvs with
  | nil => simp [dGet?] at h
  | cons kv rest ih =>
      cases kv with
      | mk k1 v1 =>
          rw [dGet?] at h
          by_cases hk : k1 == k
          · simp only [hk, if_true] at h
            cases h
            simp
            omega
          · simp only [hk, Bool.false_eq_true, if_false] at h
            have := ih h
            simp
            omega

mutual

/-- Python `==` on values.  Numeric cross-type equality (`True == 1`)
is included; `float` literals compare by literal text (the engine never
compares the floats it can create, so the `1.0 == 1` corner is not
modelled). -/
def pyEq : Val → Val → Bool
  | .none, .none => true
  | .bool a, .bool b => a == b
  | .bool a, .int n => (if a then (1 : Int) else 0) == n
  | .int n, .bool b => n == (if b then (1 : Int) else 0)
  | .int a, .int b => a == b
  | .pyFloat a, .pyFloat b => a == b
  | .str a, .str b => a == b
  | .list xs, .list ys => pyEqList xs ys
  | .dict xs, .dict ys => pyEqDictSub xs ys && pyEqDictSub ys xs
  | _, _ => false
termination_by a b => sizeOf a + sizeOf b
decreasing_by all_goals (simp_wf; omega)

def pyEqList : List Val → List Val → Bool
  | [], [] => true
  | x :: xs, y :: ys => pyEq x y && pyEqList xs ys
  | _, _ => false
termination_by xs ys => sizeOf xs + sizeOf ys
decreasing_by all_goals (simp_wf; omega)

/-- One-sided dict inclusion: every entry of `xs` has a `pyEq`-equal
value under lookup in `ys` (duplicate keys do not occur in dicts this
code builds). -/
def pyEqDictSub : List (String × Val) → List (String × Val) → Bool
  | [], _ => true
  | (k, v) :: xs, ys =>
      (match h : dGet? ys k with
       | some w => pyEq v w
       | none => false) && pyEqDictSub xs ys
termination_by xs ys => sizeOf xs + sizeOf ys
decreasing_by
  all_goals simp_wf
  all_goals (have hs2 := dGet?_sizeOf h; omega)
end

/-- Comparison key when Python can order two values (`<`, `<=`, `>`,
`>=`): numbers (bools count as 0/1) and strings.  Other operand pairs
raise `TypeError` in the engine's use (`pyFloat` operands are modelled
as unorderable; regular code never orders the floats it can create). -/
def pyCompare? : Val → Val → Option Ordering
  | .int a, .int b => some (compare a b)
  | .int a, .bool b => some (compare a (if b then 1 else 0))
  | .bool a, .int b => some (compare (if a then (1 : Int) else 0) b)
  | .bool a, .bool b => some (compare (if a then (1 : Int) else 0) (if b then 1 else 0))
  | .str a, .str b => some (compare a b)
  | _, _ => none

/-- The `TypeError` raised by an unsupported ordering comparison. -/
def cmpTypeError (sym : String) (a b : Val) : PyExn :=
  ⟨.typeError, sq ++ sym ++ sq ++ " not supported between instances of " ++ sq ++
    a.typeName ++ sq ++ " and " ++ sq ++ b.typeName ++ sq⟩

def pyLt (a b : Val) : Except PyExn Bool :=
  match pyCompare? a b with
  | some o => .ok (o == .lt)
  | none => .error (cmpTypeError "<" a b)

def pyLe (a b : Val) : Except PyExn Bool :=
  match pyCompare? a b with
  | some o => .ok (o != .gt)
  | none => .error (cmpTypeError "<=" a b)

def pyGt (a b : Val) : Except PyExn Bool :=
  match pyCompare? a b with
  | some o => .ok (o == .gt)
  | none => .error (cmpTypeError ">" a b)

def pyGe (a b : Val) : Except PyExn Bool :=
  match pyCompare? a b with
  | some o => .ok (o != .lt)
  | none => .error (cmpTypeError ">=" a b)

def listStartsWith : List Char → List Char → Bool
  | _, [] => true
  | [], _ :: _ => false
  | a :: as, b :: bs => a == b && listStartsWith as bs

/-- Substring occurrence on character lists. -/
def listHasSub (hay pat : List Char) : Bool :=
  match hay with
  | [] => pat.isEmpty
  | _ :: rest => listStartsWith hay pat || listHasSub rest pat

/-- Python `pat in s` for strings. -/
def strContains (s pat : String) : Bool :=
  listHasSub s.data pat.data

/-- Python `item in container`. -/
def pyIn (item container : Val) : Except PyExn Bool :=
  match container with
  | .list xs => .ok (xs.any (fun x => pyEq item x))
  | .str s =>
      match item with
      | .str sub => .ok (strContains s sub)
      | v => .error ⟨.typeError,
          sq ++ "in <string>" ++ sq ++ " requires string as left operand, not " ++ v.typeName⟩
  | .dict kvs =>
      match item with
      | .str k => .ok (dHas kvs k)
      | .list _ => .error ⟨.typeError, ("unhashable type: " ++ sq ++ "list" ++ sq)⟩
      | .dict _ => .error ⟨.typeError, ("unhashable type: " ++ sq ++ "dict" ++ sq)⟩
      | _ => .ok false
  | c => .error ⟨.typeError,
      "argument of type " ++ sq ++ c.typeName ++ sq ++ " is not iterable"⟩

/-- Python `for x in v` (the iteration orders the engine meets: lists,
dict keys, string characters). -/
def pyIter : Val → Except PyExn (List Val)
  | .list xs => .ok xs
  | .dict kvs => .ok (kvs.map (fun kv => Val.str kv.1))
  | .str s => .ok (s.data.map (fun c => Val.str (String.singleton c)))
  | v => .error ⟨.typeError, sq ++ v.typeName ++ sq ++ " object is not iterable"⟩

/-- Python `v[k]` with a string key. -/
def pySub (v : Val) (k : String) : Except PyExn Val :=
  match v with
  | .dict kvs =>
      match dGet? kvs k with
      | some x => .ok x
      | none => .error ⟨.keyError, sq ++ k ++ sq⟩
  | .list _ => .error ⟨.typeError, "list indices must be integers or slices, not str"⟩
  | .str _ => .error ⟨.typeError, "string indices must be integers"⟩
  | v => .error ⟨.typeError, sq ++ v.typeName ++ sq ++ " object is not subscriptable"⟩

/-- Python `v.get(k, default)`; a non-dict receiver has no `get`. -/
def pyGet (v : Val) (k : String) (default : Val) : Except PyExn Val :=
  match v with
  | .dict kvs => .ok (dGetD kvs k default)
  | w => .error ⟨.attributeError, noAttrMsg w "get"⟩

/-- JSON string escaping as `json.dumps` performs it for the characters
this code emits (quote, backslash and common control characters). -/
def jsonEscapeChar (c : Char) : String :=
  if c = '"' then "\\\""
  else if c = '\\' then "\\\\"
  else if c = '\n' then "\\n"
  else if c = '\t' then "\\t"
  else if c = '\r' then "\\r"
  else String.singleton c

def jsonStr (s : String) : String :=
  "\"" ++ String.join (s.data.map jsonEscapeChar) ++ "\""

mutual

/-- `json.dumps(v, ensure_ascii=False)` with the default separators. -/
def jsonDump : Val → String
  | .none => "null"
  | .bool true => "true"
  | .bool false => "false"
  | .int n => toString n
  | .pyFloat s => s
  | .str s => jsonStr s
  | .list xs => "[" ++ jsonDumpList xs ++ "]"
  | .dict kvs => "\x7b" ++ jsonDumpEntries kvs ++ "\x7d"

def jsonDumpList : List Val → String
  | [] => ""
  | [x] => jsonDump x
  | x :: rest => jsonDump x ++ ", " ++ jsonDumpList rest

def jsonDumpEntries : List (String × Val) → String
  | [] => ""
  | [(k, v)] => jsonStr k ++ ": " ++ jsonDump v
  | (k, v) :: rest => jsonStr k ++ ": " ++ jsonDump v ++ ", " ++ jsonDumpEntries rest
end

/-- `ErrorResponse(...).to_json()` from `error_handler.py`: the callers
in this code base always pass a truthy `error_type` and `message`, never
an `error_code` or `details`, and a `context` dict that is serialised
when truthy. -/
def errorResponseJson (errorType message : String) (context : Val) : String :=
  "\x7b" ++
    ("\"success\": false" ++
     ", \"error_type\": " ++ jsonStr errorType ++
     (if message != "" then ", \"message\": " ++ jsonStr message else "") ++
     (if context.truthy then ", \"context\": " ++ jsonDump context else "")) ++
    "\x7d"

/-- `create_database_error_response(...).to_json()`. -/
def dbErrJson (message : String) (context : Val) : String :=
  errorResponseJson "database_error" message context

/-- `create_database_connection_error_response(...).to_json()`. -/
def connErrJson (message : String) (context : Val) : String :=
  errorResponseJson "database_connection_error" message context

/-- `create_database_table_not_found_response(...).to_json()`. -/
def tblNotFoundJson (message : String) (context : Val) : String :=
  errorResponseJson "database_table_not_found" message context

/-- `create_expression_evaluation_error_response(...).to_json()`. -/
def exprErrJson (message : String) (context : Val) : String :=
  errorResponseJson "expression_evaluation_error" message context

/-- `create_sql_syntax_error_response(...).to_json()`. -/
def sqlSynErrJson (message : String) (context : Val) : String :=
  errorResponseJson "sql_syntax_error" message context

/-- `query.strip().upper().startswith('SELECT')`: after stripping
leading whitespace, the first six characters spell SELECT up to ASCII
case. -/
def isSelectQuery (query : String) : Bool :=
  List.isPrefixOf "select".data ((query.data.dropWhile pyIsSpace).map charLower)

/-- Whether an error message string is already a serialised structured
error: `msg.startswith('\x7b') and msg.endswith('\x7d')` (for the one-character
arguments used here, the first and last character decide). -/
def isJsonShaped (msg : String) : Bool :=
  (match msg.data.head? with
   | some c => c == '{'
   | Option.none => false) &&
  (match msg.data.getLast? with
   | some c => c == '}'
   | Option.none => false)

mutual

/-- Python `repr()` on the values the engine renders (string escaping
inside reprs is not exercised by this code's messages). -/
def pyRepr : Val → String
  | .none => "None"
  | .bool true => "True"
  | .bool false => "False"
  | .int n => toString n
  | .pyFloat s => s
  | .str s => sq ++ s ++ sq
  | .list xs => "[" ++ pyReprList xs ++ "]"
  | .dict kvs => "\x7b" ++ pyReprEntries kvs ++ "\x7d"

def pyReprList : List Val → String
  | [] => ""
  | [x] => pyRepr x
  | x :: rest => pyRepr x ++ ", " ++ pyReprList rest

def pyReprEntries : List (String × Val) → String
  | [] => ""
  | [(k, v)] => sq ++ k ++ sq ++ ": " ++ pyRepr v
  | (k, v) :: rest => sq ++ k ++ sq ++ ": " ++ pyRepr v ++ ", " ++ pyReprEntries rest
end

/-- Python `str()` conversion. -/
def pyStr : Val → String
  | .str s => s
  | v => pyRepr v

/-- Dotted-path descent through dicts only (`isinstance(value, dict) and
part in value`), as in `_get_field_value` and the placeholder resolver. -/
def descendDict : Val → List String → Option Val
  | v, [] => some v
  | .dict kvs, p :: ps =>
      match dGet? kvs p with
      | some w => descendDict w ps
      | none => none
  | _, _ :: _ => none

/-- `part.isdigit()`. -/
def strIsDigit (s : String) : Bool :=
  s != "" && s.data.all Char.isDigit

/-- Digit-string to number (used for sequence path segments). -/
def strToNat (s : String) : Nat :=
  s.data.foldl (fun n c => n * 10 + (c.toNat - 48)) 0

/-- `field.split('.')` (Python `str.split` with an explicit separator:
the empty string yields `['']`). -/
def splitCharsDot : List Char → List (List Char)
  | [] => [[]]
  | c :: rest =>
      let r := splitCharsDot rest
      if c == '.' then [] :: r
      else
        match r with
        | h :: t => (c :: h) :: t
        | [] => [[c]]

def pySplitDot (s : String) : List String :=
  (splitCharsDot s.data).map String.mk

/-- Dotted-path descent through dicts and (numerically indexed) lists,
as in `_get_nested_value` and `_resolve_from_context`. -/
def descendFull : Val → List String → Option Val
  | v, [] => some v
  | .dict kvs, p :: ps =>
      match dGet? kvs p with
      | some w => descendFull w ps
      | none => none
  | .list xs, p :: ps =>
      if strIsDigit p && decide (strToNat p < xs.length) then
        descendFull (xs.getD (strToNat p) Val.none) ps
      else none
  | _, _ :: _ => none

/-- `DataResolver._get_nested_value`. -/
def getNestedValue (data : Ctx) (path : String) : Val :=
  if path == "" then Val.none
  else (descendFull (Val.dict data) (pySplitDot path)).getD Val.none

/-- The replacement function for one `{{tok}}` placeholder
(`replace_match` inside `DataResolver._replace_placeholders`); a token
whose dotted path fails to resolve is kept verbatim. -/
def replaceMatch (context : Ctx) (tok : String) : String :=
  let parts := pySplitDot tok
  let keep := "\x7b\x7b" ++ tok ++ "\x7d\x7d"
  let p0 := parts.headD ""
  if p0 == "input" && dHas context "input" then
    match descendDict (dGetD context "input" Val.none) parts.tail with
    | some v => pyStr v
    | none => keep
  else if p0 == "input" && parts.length == 2 && dHas context (parts.getD 1 "") then
    pyStr (dGetD context (parts.getD 1 "") Val.none)
  else
    match descendDict (Val.dict context) parts with
    | some v => pyStr v
    | none => keep

/-- Attempt to read one placeholder token at a position just after a
`"\x7b\x7b"`: the regex `\x7b\x7b([^\x7d]+)\x7d\x7d` matches here exactly when a
non-empty run of non-`\x7d` characters is followed by `"\x7d\x7d"`. -/
def takeTok (cs : List Char) : Option (List Char × List Char) :=
  let run := cs.takeWhile (fun c => c != '}')
  let rest := cs.dropWhile (fun c => c != '}')
  if run.isEmpty then none
  else
    match rest with
    | '}' :: '}' :: r => some (run, r)
    | _ => none

theorem length_dropWhile_le_self (p : Char → Bool) (cs : List Char) :
    (cs.dropWhile p).length ≤ cs.length := by
  induction cs with
  | nil => simp
  | cons a as ih =>
      rw [List.dropWhile]
      by_cases h : p a <;> simp [h] <;> omega

theorem takeTok_length {cs tok r : List Char}
    (h : takeTok cs = some (tok, r)) : r.length < cs.length := by
  unfold takeTok at h
  by_cases he : (cs.takeWhile (fun c => c != '}')).isEmpty
  · simp [he] at h
  · simp only [he, if_false, Bool.false_eq_true] at h
    cases hd : cs.dropWhile (fun c => c != '}') with
    | nil => simp [hd] at h
    | cons c1 tl =>
        cases tl with
        | nil => simp [hd] at h
        | cons c2 r2 =>
            by_cases h1 : c1 = '}' <;> by_cases h2 : c2 = '}'
            all_goals simp [hd, h1, h2] at h
            obtain ⟨_, h⟩ := h
            subst h
            have hle := length_dropWhile_le_self (fun c => c != '}') cs
            rw [hd] at hle
            simp at hle
            cases cs with
            | nil => simp at hd
            | cons a as => simp at hle ⊢; omega

/-- The scan of `re.sub(r'\x7b\x7b([^\x7d]+)\x7d\x7d', replace_match, text)`:
left-to-right, non-overlapping, advancing one character when no match
starts at the current position.  The scan is written with an explicit
step budget (`fuel`) so it is structurally recursive; each step consumes
at least one character, so a budget of the text length is always enough
(`scanSub` supplies it). -/
def scanSubF (repl : String → String) : Nat → List Char → List Char
  | 0, cs => cs
  | _ + 1, [] => []
  | f + 1, '{' :: '{' :: rest =>
      match takeTok rest with
      | some (tok, r) => (repl (String.mk tok)).data ++ scanSubF repl f r
      | Option.none => '{' :: scanSubF repl f ('{' :: rest)
  | f + 1, c :: rest => c :: scanSubF repl f rest

/-- `DataResolver._replace_placeholders`. -/
def replacePlaceholders (text : String) (context : Ctx) : String :=
  String.mk (scanSubF (replaceMatch context) text.data.length text.data)

/-- Whether the placeholder regex matches anywhere in the text (same
fuelled scan). -/
def hasTokCharsF : Nat → List Char → Bool
  | 0, _ => false
  | _ + 1, [] => false
  | f + 1, '{' :: '{' :: rest =>
      match takeTok rest with
      | some _ => true
      | Option.none => hasTokCharsF f ('{' :: rest)
  | f + 1, _ :: rest => hasTokCharsF f rest

/-- Whether `text` contains a `\x7b\x7b...\x7d\x7d` placeholder token. -/
def hasPlaceholder (text : String) : Bool :=
  hasTokCharsF text.data.length text.data

mutual

/-- `DataResolver._replace_placeholders_in_dict`. -/
def replacePlaceholdersInVal (v : Val) (context : Ctx) : Val :=
  match v with
  | .dict kvs => .dict (replacePlaceholdersEntries kvs context)
  | .list xs => .list (replacePlaceholdersList xs context)
  | .str s => .str (replacePlaceholders s context)
  | w => w

def replacePlaceholdersList (xs : List Val) (context : Ctx) : List Val :=
  match xs with
  | [] => []
  | x :: rest =>
      replacePlaceholdersInVal x context :: replacePlaceholdersList rest context

def replacePlaceholdersEntries (kvs : List (String × Val)) (context : Ctx) :
    List (String × Val) :=
  match kvs with
  | [] => []
  | (k, v) :: rest =>
      (k, replacePlaceholdersInVal v context) ::
        replacePlaceholdersEntries rest context
end

/-- Python `int(s)` on a string (sign, digits, surrounding whitespace;
underscore digit grouping is not modelled). -/
def pyIntParse? (s : String) : Option Int :=
  let t := strTrim s
  let core : Option (Int × List Char) :=
    match t.data with
    | '+' :: ds => some (1, ds)
    | '-' :: ds => some (-1, ds)
    | ds => some (1, ds)
  match core with
  | some (sign, ds) =>
      if ds ≠ [] ∧ ds.all Char.isDigit then
        some (sign * (Int.ofNat (strToNat (String.mk ds))))
      else none
  | none => none

/-- Whether Python `float(s)` succeeds (decimal form with optional sign,
dot and exponent, or inf/infinity/nan). -/
def isPyFloatStr (s : String) : Bool :=
  let t := strLower (strTrim s)
  let body : List Char :=
    match t.data with
    | '+' :: ds => ds
    | '-' :: ds => ds
    | ds => ds
  let bodyStr := String.mk body
  if bodyStr == "inf" || bodyStr == "infinity" || bodyStr == "nan" then true
  else
    let (mant, rest) := (body.takeWhile (fun c => c != 'e'),
                         body.dropWhile (fun c => c != 'e'))
    let expOk : Bool :=
      match rest with
      | [] => true
      | _ :: es =>
          let es2 := match es with
            | '+' :: r => r
            | '-' :: r => r
            | r => r
          !es2.isEmpty && es2.all Char.isDigit
    let ip := mant.takeWhile Char.isDigit
    let after := mant.drop ip.length
    let mantOk : Bool :=
      match after with
      | [] => !ip.isEmpty
      | '.' :: fr => (!ip.isEmpty || !fr.isEmpty) && fr.all Char.isDigit
      | _ => false
    mantOk && expOk

/-- The string-to-int-to-float-to-bool coercion of the `local` data
source (the resulting float keeps its literal text). -/
def localCoerce (v : Val) : Val :=
  match v with
  | .str s =>
      match pyIntParse? s with
      | some n => .int n
      | none =>
          if isPyFloatStr s then .pyFloat (strTrim s)
          else if strLower s == "true" then .bool true
          else if strLower s == "false" then .bool false
          else .str s
  | w => w

/-- One fetched database row: column names paired with values in cursor
order (duplicate column names are possible in SQL results). -/
abbrev Row := List (String × Val)

/-- `dict(pairs)`: later values win, keys keep first-occurrence order. -/
def dictFromPairs : List (String × Val) → List (String × Val)
  | [] => []
  | (k, v) :: rest =>
      (k, rest.foldl (fun acc kv => if kv.1 == k then kv.2 else acc) v) ::
        dictFromPairs (rest.filter (fun kv => kv.1 != k))
termination_by row => row.length
decreasing_by
  simp_wf
  exact Nat.lt_succ_of_le (List.length_filter_le _ _)

/-- Outcome of `sqlite3.connect(...)` + `cursor.execute(query)` +
fetch/commit, abstracted as an oracle result. -/
inductive SqliteOutcome where
  | ok (rows : List Row) (rowcount : Int)
  | sqlErr (msg : String)
  | exn (e : PyExn)

/-- Outcome of the psycopg2 connect/execute calls. -/
inductive PgOutcome where
  | ok (columns : List String) (rows : List (List Val)) (rowcount : Int)
  | pgErr (msg : String) (pgcode : Option String)
  | exn (e : PyExn)

/-- Outcome of the pymysql connect/execute calls. -/
inductive MyOutcome where
  | ok (columns : List String) (rows : List (List Val)) (rowcount : Int)
  | myErr (code : Int) (msg : String)
  | exn (e : PyExn)

/-- The prepared outbound HTTP request of `_resolve_from_api`. -/
structure ApiRequest where
  url : String
  method : String
  headers : Val
  params : Val
  body : Val

/-- The engine's configuration plus its external effects: database
drivers, HTTP client and the sandboxed `eval` of custom expressions are
modelled as oracles; all surrounding logic is translated from source. -/
structure Engine where
  businessDbUrl : Option String
  ruleDbUrl : Option String
  fileExists : String → Bool
  sqliteRun : String → String → SqliteOutcome
  hasPostgresql : Bool
  pgRun : Val → String → PgOutcome
  hasPymysql : Bool
  myRun : String → String → MyOutcome
  apiRun : ApiRequest → Option Val
  reSearch : String → String → Except PyExn Bool
  pyEvalBody : Val → Ctx → Except (PyExn × Val) Val

/-- The SELECT-result normalisation of `_query_sqlite` (zero rows →
`None`; one row, one column → the bare value; one row, several columns →
the row dict; several rows → the list of row dicts). -/
def normalizeSqliteRows (rows : List Row) : Val :=
  let result := rows.map dictFromPairs
  match result with
  | [] => Val.none
  | [row] =>
      match row with
      | [kv] => kv.2
      | _ => Val.dict row
  | rows2 => Val.list (rows2.map Val.dict)

/-- The `db_path` selection at the head of `_query_sqlite` (this part
runs outside the function's `try`). -/
def sqlitePathSel (E : Engine) (dbUrl : Val) : Except PyExn String :=
  if dbUrl.truthy then
    match dbUrl with
    | .str u =>
        if strStartsWith u "sqlite:///" then .ok (strDrop u 10)
        else .ok (sqliteFallback E)
    | v => .error ⟨.attributeError, noAttrMsg v "startswith"⟩
  else .ok (sqliteFallback E)
where
  sqliteFallback (E : Engine) : String :=
    match E.businessDbUrl with
    | some u => if u != "" && strStartsWith u "sqlite:///" then strDrop u 10 else "rule_engine.db"
    | Option.none => "rule_engine.db"

/-- `DataResolver._query_sqlite`. -/
def querySqlite (E : Engine) (query : String) (dbUrl : Val) : Except PyExn Val := do
  let dbPath ← sqlitePathSel E dbUrl
  let ctxv := Val.dict [("db_path", .str dbPath), ("query", .str query)]
  if !E.fileExists dbPath then
    throw ⟨.generic, connErrJson ("数据库连接错误: 数据库文件不存在: " ++ dbPath) ctxv⟩
  match E.sqliteRun dbPath query with
  | .ok rows rowcount =>
      if isSelectQuery query then pure (normalizeSqliteRows rows)
      else pure (.int rowcount)
  | .sqlErr msg =>
      let ml := strLower msg
      if strContains ml "no such table" then
        throw ⟨.generic, tblNotFoundJson ("数据库表不存在错误: " ++ msg) ctxv⟩
      else if strContains ml "unable to open database file" then
        throw ⟨.generic, connErrJson ("数据库连接错误: 无法打开数据库文件: " ++ dbPath) ctxv⟩
      else if strContains ml "permission denied" then
        throw ⟨.generic, connErrJson ("数据库连接错误: 权限不足，无法访问数据库文件: " ++ dbPath) ctxv⟩
      else
        throw ⟨.generic, dbErrJson ("数据库错误: " ++ msg) ctxv⟩
  | .exn e =>
      if isJsonShaped e.msg then throw e
      else if strContains (strLower e.msg) "no such table" then
        throw ⟨.generic, tblNotFoundJson ("数据库表不存在错误: " ++ e.msg) ctxv⟩
      else
        throw ⟨.generic, dbErrJson ("数据库错误: " ++ e.msg) ctxv⟩

/-- `DataResolver._query_postgresql`.  Note: unlike the SQLite path, a
SELECT here returns the raw list of row dicts with no zero-row or
single-row normalisation. -/
def queryPostgres (E : Engine) (query : String) (dbUrl : Val) : Except PyExn Val := do
  if !E.hasPostgresql then return Val.none
  let connectionUrl : Val :=
    if dbUrl.truthy then dbUrl
    else match E.businessDbUrl with
         | some u => .str u
         | Option.none => Val.none
  if !connectionUrl.truthy then
    throw ⟨.generic, connErrJson "No database URL provided for PostgreSQL connection"
      (.dict [("query", .str query)])⟩
  match E.pgRun connectionUrl query with
  | .ok cols rows rowcount =>
      if isSelectQuery query then
        pure (.list (rows.map (fun r => .dict (dictFromPairs (cols.zip r)))))
      else pure (.int rowcount)
  | .pgErr msg code =>
      let ml := strLower msg
      let codeVal : Val := match code with
        | some c => .str c
        | Option.none => Val.none
      let ctxv := Val.dict [("connection_url", connectionUrl), ("query", .str query),
        ("error_code", codeVal)]
      if code == some "42P01" ||
          (strContains ml "relation" && strContains ml "does not exist") then
        throw ⟨.generic, tblNotFoundJson ("数据库表不存在错误: " ++ msg) ctxv⟩
      else if strContains ml "connection" || strContains ml "could not connect" ||
          strContains ml "timeout" then
        throw ⟨.generic, connErrJson ("数据库连接错误: " ++ msg) ctxv⟩
      else if code == some "08006" ||
          (strContains ml "database" && strContains ml "does not exist") then
        throw ⟨.generic, connErrJson ("数据库连接错误: 数据库不存在: " ++ msg) ctxv⟩
      else if code == some "28P01" ||
          strContains ml "password authentication failed" then
        throw ⟨.generic, connErrJson ("数据库连接错误: 认证失败: " ++ msg) ctxv⟩
      else if code == some "42601" || strContains ml "syntax error" then
        throw ⟨.generic, sqlSynErrJson ("SQL语法错误: " ++ msg) ctxv⟩
      else
        throw ⟨.generic, dbErrJson ("数据库错误: " ++ msg) ctxv⟩
  | .exn e =>
      if isJsonShaped e.msg then throw e
      else
        let ml := strLower e.msg
        let ctxv := Val.dict [("connection_url", connectionUrl), ("query", .str query)]
        if strContains ml "no such table" ||
            (strContains ml "relation" && strContains ml "does not exist") then
          throw ⟨.generic, tblNotFoundJson ("数据库表不存在错误: " ++ e.msg) ctxv⟩
        else if strContains ml "connection" || strContains ml "could not connect" then
          throw ⟨.generic, connErrJson ("数据库连接错误: " ++ e.msg) ctxv⟩
        else
          throw ⟨.generic, dbErrJson ("数据库错误: " ++ e.msg) ctxv⟩

/-- `DataResolver._query_mysql` (same raw SELECT shape as PostgreSQL). -/
def queryMysql (E : Engine) (query : String) (dbUrl : Val) : Except PyExn Val := do
  if !E.hasPymysql then return Val.none
  let connectionUrl : Val :=
    if dbUrl.truthy then dbUrl
    else match E.businessDbUrl with
         | some u => .str u
         | Option.none => Val.none
  if !connectionUrl.truthy then
    throw ⟨.generic, connErrJson "No database URL provided for MySQL connection"
      (.dict [("query", .str query)])⟩
  match connectionUrl with
  | .str u0 =>
      let u := strReplace u0 "mysql+pymysql://" "mysql://"
      let ctxg := Val.dict [("connection_url", .str u), ("query", .str query)]
      match E.myRun u query with
      | .ok cols rows rowcount =>
          if isSelectQuery query then
            pure (.list (rows.map (fun r => .dict (dictFromPairs (cols.zip r)))))
          else pure (.int rowcount)
      | .myErr code msg =>
          let ml := strLower msg
          let ctxv := Val.dict [("connection_url", .str u), ("query", .str query),
            ("error_code", .int code)]
          if code == 1146 || strContains ml "no such table" ||
              (strContains ml "table" && strContains ml ("doesn" ++ sq ++ "t exist")) then
            throw ⟨.generic, tblNotFoundJson ("数据库表不存在错误: " ++ msg) ctxv⟩
          else if code ≥ 2000 || strContains ml "connection" ||
              strContains ml ("can" ++ sq ++ "t connect") ||
              strContains ml "access denied" || strContains ml "timeout" then
            throw ⟨.generic, connErrJson ("数据库连接错误: " ++ msg) ctxv⟩
          else if code == 1064 || strContains ml "syntax error" then
            throw ⟨.generic, sqlSynErrJson ("SQL语法错误: " ++ msg) ctxv⟩
          else if code == 1049 || strContains ml "unknown database" then
            throw ⟨.generic, connErrJson ("数据库连接错误: 数据库不存在: " ++ msg) ctxv⟩
          else if code == 1045 || strContains ml "access denied for user" then
            throw ⟨.generic, connErrJson ("数据库连接错误: 认证失败: " ++ msg) ctxv⟩
          else
            throw ⟨.generic, dbErrJson ("数据库错误: " ++ msg) ctxv⟩
      | .exn e =>
          if isJsonShaped e.msg then throw e
          else
            let ml := strLower e.msg
            if strContains ml "no such table" then
              throw ⟨.generic, tblNotFoundJson ("数据库表不存在错误: " ++ e.msg) ctxg⟩
            else if strContains ml "connection" ||
                strContains ml ("can" ++ sq ++ "t connect") then
              throw ⟨.generic, connErrJson ("数据库连接错误: " ++ e.msg) ctxg⟩
            else
              throw ⟨.generic, dbErrJson ("数据库错误: " ++ e.msg) ctxg⟩
  | v =>
      -- `connection_url.startswith(...)` raises inside the `try`: the
      -- generic handler classifies its message (no keywords → db error)
      let e : PyExn := ⟨.attributeError, noAttrMsg v "startswith"⟩
      let ctxv := Val.dict [("connection_url", v), ("query", .str query)]
      throw ⟨.generic, dbErrJson ("数据库错误: " ++ e.msg) ctxv⟩

/-- `DataResolver._resolve_from_context`. -/
def resolveFromContext (req : List (String × Val)) (context : Ctx) :
    Except PyExn Val :=
  let field := dGetD req "field" Val.none
  if !field.truthy then .ok Val.none
  else
    match field with
    | .str s => .ok ((descendFull (Val.dict context) (pySplitDot s)).getD Val.none)
    | v => .error ⟨.attributeError, noAttrMsg v "split"⟩

/-- The `except` block of `_resolve_from_database`: a message that is
already structured-error JSON is re-raised untouched; anything else is
classified (table-not-found / connection / SQL-syntax / database) and
wrapped. -/
def dbErrorWrap (e : PyExn) (ctxv : Val) : PyExn :=
  if isJsonShaped e.msg then e
  else
    let ml := strLower e.msg
    if strContains ml "no such table" then
      ⟨.generic, tblNotFoundJson ("数据库表不存在错误: " ++ e.msg) ctxv⟩
    else if strContains ml "connection" ||
        strContains ml ("can" ++ sq ++ "t connect") then
      ⟨.generic, connErrJson ("数据库连接错误: " ++ e.msg) ctxv⟩
    else if strContains ml "syntax error" then
      ⟨.generic, sqlSynErrJson ("SQL语法错误: " ++ e.msg) ctxv⟩
    else
      ⟨.generic, dbErrJson ("数据库错误: " ++ e.msg) ctxv⟩

/-- `DataResolver._resolve_from_database`: placeholder substitution into
the query, connection-target selection, engine dispatch, and the
classify-and-wrap `except` block with its pass-through of messages that
are already structured-error JSON. -/
def resolveFromDatabase (E : Engine) (req : List (String × Val)) (context : Ctx) :
    Except PyExn Val := do
  let dbType := dGetD req "db_type" (.str "sqlite")
  let query := dGetD req "query" Val.none
  let explicitDbUrl := dGetD req "db_url" Val.none
  let dbUrl : Val :=
    if explicitDbUrl.truthy then explicitDbUrl
    else
      let dbSource := dGetD req "db_source" (.str "business")
      if pyEq dbSource (.str "rule") then
        match E.ruleDbUrl with
        | some u => .str u
        | Option.none => Val.none
      else
        match E.businessDbUrl with
        | some u => .str u
        | Option.none => Val.none
  if !query.truthy then return Val.none
  let queryS ← match query with
    | .str s => pure (replacePlaceholders s context)
    | _ => throw ⟨.typeError, "expected string or bytes-like object"⟩
  let queryS :=
    if pyEq dbType (.str "sqlite") &&
        strContains queryS "DATE_SUB(CURDATE(), INTERVAL 1 YEAR)" then
      strReplace queryS "DATE_SUB(CURDATE(), INTERVAL 1 YEAR)"
        ("date(" ++ sq ++ "now" ++ sq ++ ", " ++ sq ++ "-1 year" ++ sq ++ ")")
    else queryS
  let ctxv := Val.dict [("db_type", dbType), ("query", .str queryS), ("db_url", dbUrl)]
  let attempt : Except PyExn Val :=
    if pyEq dbType (.str "sqlite") then querySqlite E queryS dbUrl
    else if pyEq dbType (.str "postgresql") && dbUrl.truthy then
      queryPostgres E queryS dbUrl
    else if pyEq dbType (.str "mysql") && dbUrl.truthy then
      queryMysql E queryS dbUrl
    else
      .error ⟨.generic, dbErrJson ("不支持的数据库类型: " ++ pyStr dbType) ctxv⟩
  match attempt with
  | .ok v => pure v
  | .error e => throw (dbErrorWrap e ctxv)

/-- `DataResolver._resolve_from_api`: every failure of the HTTP call is
swallowed to `None` (the oracle returns `none` for any in-`try` failure),
but a non-string url or method fails before the `try` and propagates. -/
def resolveFromApi (E : Engine) (req : List (String × Val)) (context : Ctx) :
    Except PyExn Val := do
  let url := dGetD req "url" Val.none
  if !url.truthy then return Val.none
  let urlS ← match url with
    | .str s => pure (replacePlaceholders s context)
    | _ => throw ⟨.typeError, "expected string or bytes-like object"⟩
  let methodS ← match dGetD req "method" (.str "GET") with
    | .str m => pure m.toUpper
    | v => throw ⟨.attributeError, noAttrMsg v "upper"⟩
  let headers := dGetD req "headers" (.dict [])
  let params := replacePlaceholdersInVal (dGetD req "params" (.dict [])) context
  let body0 := dGetD req "body" Val.none
  let body := if body0.truthy then replacePlaceholdersInVal body0 context else body0
  match E.apiRun ⟨urlS, methodS, headers, params, body⟩ with
  | some v => pure v
  | Option.none => pure Val.none

/-- `DataResolver.resolve_data` (the method): `source` dispatch for the
`local`/`db` spellings, then `type` dispatch with default `context`. -/
def resolveData (E : Engine) (reqV : Val) (context : Ctx) : Except PyExn Val := do
  match reqV with
  | .dict req =>
      let source := dGetD req "source" Val.none
      if pyEq source (.str "local") then
        match dGetD req "query" (.str "") with
        | .str q =>
            let q := if strStartsWith q "input." then strDrop q 6 else q
            pure (localCoerce (getNestedValue context q))
        | v => throw ⟨.attributeError, noAttrMsg v "startswith"⟩
      else if pyEq source (.str "db") then
        resolveFromDatabase E req context
      else
        let ty := dGetD req "type" (.str "context")
        if pyEq ty (.str "context") then resolveFromContext req context
        else if pyEq ty (.str "api") then resolveFromApi E req context
        else if pyEq ty (.str "database") then resolveFromDatabase E req context
        else if pyEq ty (.str "static") then pure (dGetD req "value" Val.none)
        else pure Val.none
  | _ => pure Val.none

/-- The keys of `RuleEngine.OPERATORS`. -/
def operatorNames : List String :=
  ["eq", "ne", "lt", "le", "gt", "ge", ">", "<", ">=", "<=", "==", "!=",
   "and", "or", "not", "in", "not_in", "contains", "not_contains",
   "startswith", "endswith", "regex", "is_null", "is_not_null",
   "is_empty", "is_not_empty"]

/-- The operators applied to `actual` alone. -/
def unaryOpNames : List String :=
  ["is_null", "is_not_null", "is_empty", "is_not_empty"]

/-- `operator.and_` (bitwise `&`; boolean for two bools, `TypeError`
otherwise outside numbers). -/
def pyBitAnd (x y : Val) : Except PyExn Val :=
  match x, y with
  | .bool a, .bool b => .ok (.bool (a && b))
  | .bool a, .int n => .ok (.int (Int.land (if a then 1 else 0) n))
  | .int m, .bool b => .ok (.int (Int.land m (if b then 1 else 0)))
  | .int m, .int n => .ok (.int (Int.land m n))
  | a, b => .error ⟨.typeError, "unsupported operand type(s) for &: " ++
      sq ++ a.typeName ++ sq ++ " and " ++ sq ++ b.typeName ++ sq⟩

/-- `operator.or_` (bitwise `|`). -/
def pyBitOr (x y : Val) : Except PyExn Val :=
  match x, y with
  | .bool a, .bool b => .ok (.bool (a || b))
  | .bool a, .int n => .ok (.int (Int.lor (if a then 1 else 0) n))
  | .int m, .bool b => .ok (.int (Int.lor m (if b then 1 else 0)))
  | .int m, .int n => .ok (.int (Int.lor m n))
  | a, b => .error ⟨.typeError, "unsupported operand type(s) for |: " ++
      sq ++ a.typeName ++ sq ++ " and " ++ sq ++ b.typeName ++ sq⟩

/-- The unary entries of `OPERATORS`. -/
def applyUnaryOp (op : String) (x : Val) : Except PyExn Val :=
  match op with
  | "is_null" => .ok (.bool (match x with | .none => true | _ => false))
  | "is_not_null" => .ok (.bool (match x with | .none => false | _ => true))
  | "is_empty" => .ok (.bool (!x.truthy))
  | "is_not_empty" => .ok (.bool x.truthy)
  | _ => .error ⟨.generic, "not a unary operator: " ++ op⟩

/-- The binary entries of `OPERATORS` (note `contains` tests
`value in actual`; `startswith`/`endswith` yield `False` for a
non-string actual; `regex` searches the pattern in `str(actual)`). -/
def applyBinaryOp (E : Engine) (op : String) (x y : Val) : Except PyExn Val :=
  match op with
  | "eq" => .ok (.bool (pyEq x y))
  | "==" => .ok (.bool (pyEq x y))
  | "ne" => .ok (.bool (!pyEq x y))
  | "!=" => .ok (.bool (!pyEq x y))
  | "lt" => (pyLt x y).map Val.bool
  | "<" => (pyLt x y).map Val.bool
  | "le" => (pyLe x y).map Val.bool
  | "<=" => (pyLe x y).map Val.bool
  | "gt" => (pyGt x y).map Val.bool
  | ">" => (pyGt x y).map Val.bool
  | "ge" => (pyGe x y).map Val.bool
  | ">=" => (pyGe x y).map Val.bool
  | "and" => pyBitAnd x y
  | "or" => pyBitOr x y
  | "not" => .error ⟨.typeError, "not_ expected 1 argument, got 2"⟩
  | "in" => (pyIn x y).map Val.bool
  | "not_in" => (pyIn x y).map (fun b => Val.bool !b)
  | "contains" => (pyIn y x).map Val.bool
  | "not_contains" => (pyIn y x).map (fun b => Val.bool !b)
  | "startswith" =>
      match x with
      | .str s =>
          match y with
          | .str p => .ok (.bool (strStartsWith s p))
          | v => .error ⟨.typeError,
              "startswith first arg must be str or a tuple of str, not " ++ v.typeName⟩
      | _ => .ok (.bool false)
  | "endswith" =>
      match x with
      | .str s =>
          match y with
          | .str p => .ok (.bool (strEndsWith s p))
          | v => .error ⟨.typeError,
              "endswith first arg must be str or a tuple of str, not " ++ v.typeName⟩
      | _ => .ok (.bool false)
  | "regex" =>
      match y with
      | .str pat => (E.reSearch pat (pyStr x)).map Val.bool
      | _ => .error ⟨.typeError, "first argument must be string or compiled pattern"⟩
  | _ => .error ⟨.generic, "not a binary operator: " ++ op⟩

/-- `RuleEngine._evaluate_operation`: unknown operators raise
`ValueError`, unary operators ignore `expected`. -/
def evaluateOperation (E : Engine) (op : Val) (actual expected : Val) :
    Except PyExn Val := do
  let isMember ← match op with
    | .str s => pure (operatorNames.contains s)
    | .list _ => throw ⟨.typeError, "unhashable type: " ++ sq ++ "list" ++ sq⟩
    | .dict _ => throw ⟨.typeError, "unhashable type: " ++ sq ++ "dict" ++ sq⟩
    | _ => pure false
  if !isMember then
    throw ⟨.valueError, "Unknown operator: " ++ pyStr op⟩
  match op with
  | .str s =>
      if unaryOpNames.contains s then applyUnaryOp s actual
      else applyBinaryOp E s actual expected
  | _ => throw ⟨.valueError, "Unknown operator: " ++ pyStr op⟩

/-- `RuleEngine._get_field_value`: dict-only dotted descent, `None` when
absent; a non-string field fails on `.split` before the internal
`try`. -/
def getFieldValue (field : Val) (context : Ctx) : Except PyExn Val :=
  match field with
  | .str s => .ok ((descendDict (Val.dict context) (pySplitDot s)).getD Val.none)
  | v => .error ⟨.attributeError, noAttrMsg v "split"⟩

/-- The exception kinds the custom-expression `except` treats leniently
(`isinstance(e, (TypeError, AttributeError, IndexError, NameError))`). -/
def lenientKinds : List ExnKind :=
  [.typeError, .attributeError, .indexError, .nameError]

/-- `RuleEngine._evaluate_custom_expression`: the whole `try` body (the
context coercion, placeholder substitution, unit stripping and the
sandboxed `eval`) is the oracle `E.pyEvalBody`, whose error also carries
the `substituted_expr` value in scope at the raise; the `except` clause
is translated: missing/None-operand failures (the listed exception
classes, or a message mentioning `NoneType`) degrade to `False`, any
other failure re-raises a structured expression-evaluation error. -/
def evaluateCustomExpression (E : Engine) (customExpr : Val) (context : Ctx) :
    Except PyExn Val :=
  match E.pyEvalBody customExpr context with
  | .ok v => .ok v
  | .error (e, substExpr) =>
      if lenientKinds.contains e.kind || strContains e.msg "NoneType" then
        .ok (.bool false)
      else
        .error ⟨.generic, exprErrJson ("自定义表达式评估错误: " ++ e.msg)
          (.dict [("custom_expression", customExpr),
                  ("substituted_expr", substExpr)])⟩

/-- The `except` clause of `evaluate_expression`: an error message that
is already structured-error JSON is carried through unchanged, any other
message is wrapped in an expression-evaluation error envelope. -/
def exprCatch (e : PyExn) (expression : Val) : Val :=
  if isJsonShaped e.msg then
    Val.dict [("result", .bool false), ("error", .str e.msg)]
  else
    Val.dict [("result", .bool false),
      ("error", .str (exprErrJson ("表达式评估错误: " ++ e.msg)
        (.dict [("expression", expression)])))]

/-- `evaluate_expression` specialised to a string expression (this path
makes no recursive call; it is used for the sub-"expressions" produced
when a logical block's operand iterates as dict keys or characters). -/
def evalStringExpr (E : Engine) (s : String) (context : Ctx) : Val :=
  if s == "" then Val.dict [("result", .bool true)]
  else
    match (do
        let c ← evaluateCustomExpression E (.str s) context
        match c with
        | .dict _ => pure c
        | v => pure (Val.dict [("result", .bool v.truthy)]) :
          Except PyExn Val) with
    | .ok v => v
    | .error e => exprCatch e (.str s)

/-- `for r in results: if 'error' in r: return r` over sub-results. -/
def firstErrorResult : List Val → Except PyExn (Option Val)
  | [] => .ok Option.none
  | r :: rest => do
      let he ← pyIn (.str "error") r
      if he then pure (some r) else firstErrorResult rest

/-- `all(r['result'] for r in results)` (lazy, as the generator is). -/
def allTruthyResults : List Val → Except PyExn Bool
  | [] => .ok true
  | r :: rest => do
      let v ← pySub r "result"
      if v.truthy then allTruthyResults rest else pure false

/-- `any(r['result'] for r in results)` (lazy). -/
def anyTruthyResults : List Val → Except PyExn Bool
  | [] => .ok false
  | r :: rest => do
      let v ← pySub r "result"
      if v.truthy then pure true else anyTruthyResults rest

mutual

/-- `RuleEngine.evaluate_expression`: total by the enclosing
`try/except`; falsy expressions and unrecognised shapes default to
`\x7b'result': True\x7d`; a top-level custom expression's value is returned
verbatim. -/
def evaluateExpression (E : Engine) (expr : Val) (context : Ctx) : Val :=
  if !expr.truthy then Val.dict [("result", .bool true)]
  else
    match evalTry E expr context with
    | .ok v => v
    | .error e => exprCatch e expr
termination_by 2 * sizeOf expr + 1
decreasing_by simp_wf

/-- The `try` body of `evaluate_expression`. -/
def evalTry (E : Engine) (expr : Val) (context : Ctx) : Except PyExn Val :=
  match expr with
  | .str s => do
      let c ← evaluateCustomExpression E (.str s) context
      match c with
      | .dict _ => pure c
      | v => pure (Val.dict [("result", .bool v.truthy)])
  | .dict kvs =>
      match dGet? kvs "custom" with
      | some ce => evaluateCustomExpression E ce context
      | Option.none =>
      match dGet? kvs "field", dGet? kvs "operator", dGet? kvs "value" with
      | some f, some op, some v => do
          let actual ← getFieldValue f context
          let result ← evaluateOperation E op actual v
          pure (Val.dict [("result", result)])
      | _, _, _ =>
      match hA : dGet? kvs "and" with
      | some av => do
          let results ← evalSubExprs E av context
          match ← firstErrorResult results with
          | some r => pure r
          | Option.none => do
              let b ← allTruthyResults results
              pure (Val.dict [("result", .bool b)])
      | Option.none =>
      match hO : dGet? kvs "or" with
      | some ov => do
          let results ← evalSubExprs E ov context
          match ← firstErrorResult results with
          | some r => pure r
          | Option.none => do
              let b ← anyTruthyResults results
              pure (Val.dict [("result", .bool b)])
      | Option.none =>
      match hN : dGet? kvs "not" with
      | some nv => do
          let result := evaluateExpression E nv context
          let he ← pyIn (.str "error") result
          if he then pure result
          else do
            let v ← pySub result "result"
            pure (Val.dict [("result", .bool (!v.truthy))])
      | Option.none => pure (Val.dict [("result", .bool true)])
  | _ => pure (Val.dict [("result", .bool true)])
termination_by 2 * sizeOf expr
decreasing_by
  all_goals simp_wf
  all_goals first
    | (have hs2 := dGet?_sizeOf hA; omega)
    | (have hs2 := dGet?_sizeOf hO; omega)
    | (have hs2 := dGet?_sizeOf hN; omega)

/-- `[self.evaluate_expression(expr, context) for expr in operand]`:
list elements recurse; dict keys and string characters run the
non-recursive string path; anything else is not iterable. -/
def evalSubExprs (E : Engine) (av : Val) (context : Ctx) :
    Except PyExn (List Val) :=
  match av with
  | .list xs => .ok (xs.attach.map (fun e => evaluateExpression E e.val context))
  | .dict kvs => .ok (kvs.map (fun kv => evalStringExpr E kv.1 context))
  | .str s => .ok (s.data.map (fun c => evalStringExpr E (String.singleton c) context))
  | v => .error ⟨.typeError, sq ++ v.typeName ++ sq ++ " object is not iterable"⟩
termination_by 2 * sizeOf av + 2
decreasing_by
  simp_wf
  have := List.sizeOf_lt_of_mem e.property
  omega
end

/-- Whether the requirement-resolution loops process this element
(`isinstance(req, dict) and 'name' in req`). -/
def reqQualifies : Val → Bool
  | .dict kvs => dHas kvs "name"
  | _ => false

/-- The in-place mutation `if 'type' not in req: req['type'] = 'context'`
applied to a qualifying requirement dict. -/
def addTypeDefault (r : Val) : Val :=
  match r with
  | .dict kvs =>
      if dHas kvs "type" then r
      else .dict (dSet kvs "type" (.str "context"))
  | v => v

/-- `source_priority.get(r.get('source', 'context'), 9)`; the key
function raises `AttributeError` on a non-dict element. -/
def sourcePriority (r : Val) : Except PyExn Nat :=
  match r with
  | .dict kvs =>
      .ok (match dGetD kvs "source" (.str "context") with
        | .str "function" => 0
        | .str "local" => 1
        | .str "context" => 2
        | .str "rule_db" => 3
        | .str "db" => 4
        | .str "api" => 5
        | _ => 9)
  | v => .error ⟨.attributeError, noAttrMsg v "get"⟩

/-- Tag list elements with their positions (as `enumerate` would). -/
def idxTag (i : Nat) : List Val → List (Nat × Val)
  | [] => []
  | v :: rest => (i, v) :: idxTag (i + 1) rest

/-- Apply the sort key to every element (as `sorted` does before
comparing); the first failing key application aborts the sort. -/
def prioritize : List (Nat × Val) → Except PyExn (List (Nat × Nat × Val))
  | [] => .ok []
  | iv :: rest => do
      let p ← sourcePriority iv.2
      let r ← prioritize rest
      pure ((p, iv) :: r)

/-- `sorted(requires, key=source_priority)`: stable sort, realised as a
bucket pass over the fixed priority values, with each element tagged by
its original position so the in-place requirement mutations can be
written back to the untouched list order. -/
def sortByPriority (reqs : List Val) : Except PyExn (List (Nat × Val)) := do
  let withPri ← prioritize (idxTag 0 reqs)
  pure ((([0, 1, 2, 3, 4, 5, 9] : List Nat).map
    (fun p => (withPri.filter (fun x => x.1 == p)).map (fun x => x.2))).join)

/-- Iterate a `requires` value and priority-sort it. -/
def sortedRequires (requiresVal : Val) : Except PyExn (List (Nat × Val)) := do
  let elems ← pyIter requiresVal
  sortByPriority elems

/-- `condition_context[req['name']] = value` (a non-string `name`, which
no claim involves, is not representable in the string-keyed context and
is dropped). -/
def bindName (ctx : Ctx) (r2 : Val) (v : Val) : Ctx :=
  match r2 with
  | .dict kvs =>
      match dGet? kvs "name" with
      | some (.str s) => dSet ctx s v
      | _ => ctx
  | _ => ctx

/-- Write the processed (possibly type-defaulted) elements back into the
original `requires` list by position; a non-list `requires` has no
mutable dict elements and is returned unchanged. -/
def writeBackReqs (original : Val) (processed : List (Nat × Val)) : Val :=
  match original with
  | .list xs =>
      .list ((idxTag 0 xs).map (fun iv =>
        match processed.find? (fun p => p.1 == iv.1) with
        | some p => p.2
        | Option.none => iv.2))
  | v => v

/-- The default `on_fail` policy. -/
def defaultOnFail : Val :=
  .dict [("action", .str "block"), ("notify", .list [.str "user"])]

/-- The immediate result for a falsy rule set or a missing `rules` key. -/
def invalidRuleSetResult : Val :=
  .dict [("pass", .bool false), ("violations", .list []),
         ("error", .str "Invalid rule set")]

/-- The early return produced when an `applies_when` condition fails:
one synthetic violation carrying the condition's message, `pass=False`,
`applies=False`. -/
def syntheticResult (rsKvs : List (String × Val)) (condId condMessage : Val) : Val :=
  let entry := Val.dict
    [("id", condId), ("pass", .bool false), ("message", condMessage)]
  Val.dict
    [("pass", .bool false),
     ("violations", .list [entry]),
     ("results", .list [entry]),
     ("rule_set_id", dGetD rsKvs "id" Val.none),
     ("rule_set_name", dGetD rsKvs "name" Val.none),
     ("on_fail", dGetD rsKvs "on_fail" defaultOnFail),
     ("applies", .bool false)]

/-- Output of the `applies_when` condition requirement loop: the
processed element list (type defaults applied up to the raising
requirement), the accumulated condition context and the exception that
interrupted the loop, if any. -/
structure CondResolveOut where
  reqs : List (Nat × Val)
  ctx : Ctx
  raised : Option PyExn

/-- The requirement loop inside an `applies_when` condition: resolution
runs inside the condition's `try`, so the first exception stops the loop
(later elements keep their unmutated form). -/
def resolveCondReqs (E : Engine) : List (Nat × Val) → Ctx → CondResolveOut
  | [], ctx => ⟨[], ctx, Option.none⟩
  | (i, r) :: rest, ctx =>
      if reqQualifies r then
        let r2 := addTypeDefault r
        match resolveData E r2 ctx with
        | .error e => ⟨(i, r2) :: rest, ctx, some e⟩
        | .ok v =>
            let ctx2 := match v with
              | .none => ctx
              | w => bindName ctx r2 w
            let out := resolveCondReqs E rest ctx2
            ⟨(i, r2) :: out.reqs, out.ctx, out.raised⟩
      else
        let out := resolveCondReqs E rest ctx
        ⟨(i, r) :: out.reqs, out.ctx, out.raised⟩

/-- Process one `applies_when` condition.  Returns the condition (with
its requirement dicts updated in place) and the early-return result when
the condition fails; the legacy `field/operator/value` branch runs
outside any `try`, so its exceptions propagate. -/
def processCondition (E : Engine) (rsKvs : List (String × Val)) (context : Ctx)
    (cond : Val) : Except PyExn (Val × Option Val) :=
  match cond with
  | .dict ckvs =>
      let condRequires := dGetD ckvs "requires" (.list [])
      let condExpr := dGetD ckvs "expression" Val.none
      let condMessage :=
        let m := dGetD ckvs "message" Val.none
        if m.truthy then m else .str "规则集前置条件不满足"
      let condId := dGetD ckvs "id" (.str "applies_condition")
      if condRequires.truthy && condExpr.truthy then do
        let sorted ← sortedRequires condRequires
        let out := resolveCondReqs E sorted context
        let updCond := Val.dict (dSet ckvs "requires" (writeBackReqs condRequires out.reqs))
        match out.raised with
        | some _ => pure (updCond, some (syntheticResult rsKvs condId condMessage))
        | Option.none =>
            let passed := evaluateExpression E condExpr out.ctx
            match pyGet passed "result" (.bool false) with
            | .error _ => pure (updCond, some (syntheticResult rsKvs condId condMessage))
            | .ok rv =>
                if rv.truthy then pure (updCond, Option.none)
                else pure (updCond, some (syntheticResult rsKvs condId condMessage))
      else
        let field := dGetD ckvs "field" Val.none
        let operatorV := dGetD ckvs "operator" Val.none
        let value := dGetD ckvs "value" Val.none
        let valueNotNone := match value with
          | .none => false
          | _ => true
        if field.truthy && operatorV.truthy && valueNotNone then do
          let actual ← resolveData E
            (.dict [("name", .str "field_value"), ("source", .str "context"),
                    ("field", field)]) context
          let res ← evaluateOperation E operatorV actual value
          if !res.truthy then pure (cond, some (syntheticResult rsKvs condId condMessage))
          else pure (cond, Option.none)
        else pure (cond, Option.none)
  | _ => pure (cond, Option.none)

/-- The `applies_when` loop over all conditions. -/
def runConditions (E : Engine) (rsKvs : List (String × Val)) (context : Ctx) :
    List Val → Except PyExn (List Val × Option Val)
  | [] => .ok ([], Option.none)
  | c :: rest => do
      let (c2, out) ← processCondition E rsKvs context c
      match out with
      | some res => pure (c2 :: rest, some res)
      | Option.none => do
          let (rest2, out2) ← runConditions E rsKvs context rest
          pure (c2 :: rest2, out2)

/-- The keyword scan that decides whether an error counts as
database-related. -/
def hasDbKeyword (em : String) : Bool :=
  ["database", "sqlite", "mysql", "postgresql", "no such table",
   "connection"].any (fun k => strContains (strLower em) k)

/-- The wrap step of the rule-set-level `requires` loop (already-JSON
messages pass through; otherwise table-not-found / connection / database
classification with the requirement as error context). -/
def classifyTopReqError (e : PyExn) (req2 : Val) : String :=
  if isJsonShaped e.msg then e.msg
  else
    let ml := strLower e.msg
    let ctxv := Val.dict [("requirement", req2)]
    if strContains ml "no such table" then
      tblNotFoundJson ("数据库表不存在错误: " ++ e.msg) ctxv
    else if strContains ml "connection" ||
        strContains ml ("can" ++ sq ++ "t connect") then
      connErrJson ("数据库连接错误: " ++ e.msg) ctxv
    else dbErrJson ("数据库错误: " ++ e.msg) ctxv

/-- Output of the rule-set-level requirement loop. -/
structure ReqLoopOut where
  reqs : List (Nat × Val)
  ctx : Ctx
  entries : List Val

/-- The rule-set-level `requires` loop: each element resolves against
the original incoming context inside its own `try`, failures null the
target key and (when database-related) prepend a `db_error_<name>`
violation; every element is processed. -/
def resolveTopReqs (E : Engine) (origCtx : Ctx) :
    List (Nat × Val) → Ctx → ReqLoopOut
  | [], resCtx => ⟨[], resCtx, []⟩
  | (i, r) :: rest, resCtx =>
      if reqQualifies r then
        let r2 := addTypeDefault r
        match resolveData E r2 origCtx with
        | .ok v =>
            let resCtx2 := match v with
              | .none => resCtx
              | w => bindName resCtx r2 w
            let out := resolveTopReqs E origCtx rest resCtx2
            ⟨(i, r2) :: out.reqs, out.ctx, out.entries⟩
        | .error e =>
            let resCtx2 := bindName resCtx r2 Val.none
            let em := classifyTopReqError e r2
            let entryList :=
              if hasDbKeyword em then
                [Val.dict
                  [("id", .str ("db_error_" ++ pyStr (dGetD
                      (match r2 with | .dict kvs => kvs | _ => []) "name" Val.none))),
                   ("pass", .bool false),
                   ("message", .str ("数据库错误: " ++ em)),
                   ("type", .str "database_error"),
                   ("details", .str em)]]
              else []
            let out := resolveTopReqs E origCtx rest resCtx2
            ⟨(i, r2) :: out.reqs, out.ctx, entryList ++ out.entries⟩
      else
        let out := resolveTopReqs E origCtx rest resCtx
        ⟨(i, r) :: out.reqs, out.ctx, out.entries⟩

/-- The wrap step for a requirement failure inside a rule (context
carries the rule id and the live rule dict). -/
def classifyRuleReqError (e : PyExn) (ruleId ruleNow : Val) : String :=
  if isJsonShaped e.msg then e.msg
  else
    let ml := strLower e.msg
    let ctxv := Val.dict [("rule_id", ruleId), ("rule", ruleNow)]
    if strContains ml "no such table" then
      tblNotFoundJson ("数据库表不存在错误: " ++ e.msg) ctxv
    else if strContains ml "connection" ||
        strContains ml ("can" ++ sq ++ "t connect") then
      connErrJson ("数据库连接错误: " ++ e.msg) ctxv
    else if strContains ml "expression" || strContains ml "syntax" then
      exprErrJson ("表达式评估错误: " ++ e.msg) ctxv
    else exprErrJson ("规则评估错误: " ++ e.msg) ctxv

/-- The wrap step for an `error` result of the rule's expression
evaluation (context carries the rule id and the expression). -/
def classifyRuleExprError (em0 : String) (ruleId ruleExpression : Val) : String :=
  if isJsonShaped em0 then em0
  else
    let ml := strLower em0
    let ctxv := Val.dict [("rule_id", ruleId), ("expression", ruleExpression)]
    if strContains ml "no such table" then
      tblNotFoundJson ("数据库表不存在错误: " ++ em0) ctxv
    else if strContains ml "connection" ||
        strContains ml ("can" ++ sq ++ "t connect") then
      connErrJson ("数据库连接错误: " ++ em0) ctxv
    else if strContains ml "expression" || strContains ml "syntax" then
      exprErrJson ("表达式评估错误: " ++ em0) ctxv
    else exprErrJson ("规则评估错误: " ++ em0) ctxv

/-- The wrap step of the per-rule catch-all `except`. -/
def classifyRuleCatchError (e : PyExn) (ruleId ruleNow : Val) : String :=
  if isJsonShaped e.msg then e.msg
  else
    let ml := strLower e.msg
    let ctxv := Val.dict [("rule_id", ruleId), ("rule", ruleNow)]
    if strContains ml "no such table" then
      tblNotFoundJson ("数据库表不存在错误: " ++ e.msg) ctxv
    else if strContains ml "connection" ||
        strContains ml ("can" ++ sq ++ "t connect") then
      connErrJson ("数据库连接错误: " ++ e.msg) ctxv
    else if strContains ml "expression" || strContains ml "syntax" then
      exprErrJson ("表达式评估错误: " ++ e.msg) ctxv
    else exprErrJson ("规则评估错误: " ++ e.msg) ctxv

/-- The violation entry appended by the per-rule catch-all. -/
def catchEntry (ruleId : Val) (em : String) : Val :=
  Val.dict [("id", ruleId), ("pass", .bool false),
    ("message", .str ("规则评估错误: " ++ em)),
    ("type", .str "rule_evaluation_error"), ("details", .str em)]

/-- The per-requirement loop of one rule: resolution against the
accumulating rule context, each failure appending the two violation
entries of the source and nulling the key; all elements are processed. -/
def resolveRuleReqs (E : Engine) (ruleKvs : List (String × Val)) (requiresVal : Val)
    (ruleId : Val) (acc : List (Nat × Val)) (rem : List (Nat × Val)) (ruleCtx : Ctx)
    (entries : List Val) : List (Nat × Val) × Ctx × List Val :=
  match rem with
  | [] => (acc, ruleCtx, entries)
  | (i, r) :: rest =>
      if reqQualifies r then
        let r2 := addTypeDefault r
        match resolveData E r2 ruleCtx with
        | .ok v =>
            let ruleCtx2 := match v with
              | .none => ruleCtx
              | w => bindName ruleCtx r2 w
            resolveRuleReqs E ruleKvs requiresVal ruleId (acc ++ [(i, r2)]) rest
              ruleCtx2 entries
        | .error e =>
            let ruleCtx2 := bindName ruleCtx r2 Val.none
            let ruleNow := Val.dict (dSet ruleKvs "requires"
              (writeBackReqs requiresVal (acc ++ [(i, r2)])))
            let em := classifyRuleReqError e ruleId ruleNow
            let e1 := Val.dict [("id", ruleId), ("pass", .bool false),
              ("message", .str ("规则评估错误: " ++ em)),
              ("type", .str "rule_evaluation_error"), ("details", .str em)]
            let msgTy := if hasDbKeyword em then
                ("数据库错误: " ++ em, "database_error")
              else ("表达式评估错误: " ++ em, "expression_error")
            let e2 := Val.dict [("id", ruleId), ("pass", .bool false),
              ("message", .str msgTy.1), ("type", .str msgTy.2),
              ("details", .str em)]
            resolveRuleReqs E ruleKvs requiresVal ruleId (acc ++ [(i, r2)]) rest
              ruleCtx2 (entries ++ [e1, e2])
      else
        resolveRuleReqs E ruleKvs requiresVal ruleId (acc ++ [(i, r)]) rest
          ruleCtx entries

/-- Evaluate the rule's expression against its scoped context and build
the outcome entry; the catch-all wraps anything raised here. -/
def evalRulePhase (E : Engine) (ruleV2 : Val) (ruleId ruleExpression ruleMessage : Val)
    (ruleCtx : Ctx) (entries : List Val) : Val × List Val :=
  let passed := evaluateExpression E ruleExpression ruleCtx
  let attempt : Except PyExn (List Val) := do
    let he ← pyIn (.str "error") passed
    if he then do
      let ev ← pySub passed "error"
      match ev with
      | .str em0 =>
          let em := classifyRuleExprError em0 ruleId ruleExpression
          let msgTy := if hasDbKeyword em then
              ("数据库错误: " ++ em, "database_error")
            else ("表达式评估错误: " ++ em, "expression_error")
          pure [Val.dict [("id", ruleId), ("pass", .bool false),
            ("message", .str msgTy.1), ("type", .str msgTy.2),
            ("details", .str em)]]
      | v => throw ⟨.attributeError, noAttrMsg v "startswith"⟩
    else do
      let rp ← pySub passed "result"
      pure [Val.dict [("id", ruleId), ("pass", rp),
        ("message", if !rp.truthy then ruleMessage else Val.none)]]
  match attempt with
  | .ok newEntries => (ruleV2, entries ++ newEntries)
  | .error e =>
      let em := classifyRuleCatchError e ruleId ruleV2
      (ruleV2, entries ++ [catchEntry ruleId em])

/-- Process one element of `rule_set['rules']`: non-dicts are skipped;
otherwise the rule's own requirements resolve into a scoped copy of the
resolved context and the expression is evaluated. -/
def processRule (E : Engine) (resolvedCtx : Ctx) (ruleV : Val) : Val × List Val :=
  match ruleV with
  | .dict rkvs =>
      let ruleId := dGetD rkvs "id" (.str "unknown")
      let ruleExpression := dGetD rkvs "expression" (.dict [])
      let ruleMessage := dGetD rkvs "message" (.str "Rule failed")
      let ruleRequires := dGetD rkvs "requires" (.list [])
      if ruleRequires.truthy then
        match sortedRequires ruleRequires with
        | .error e =>
            let em := classifyRuleCatchError e ruleId ruleV
            (ruleV, [catchEntry ruleId em])
        | .ok sorted =>
            let out := resolveRuleReqs E rkvs ruleRequires ruleId [] sorted
              resolvedCtx []
            let rkvs2 := dSet rkvs "requires" (writeBackReqs ruleRequires out.1)
            evalRulePhase E (Val.dict rkvs2) ruleId ruleExpression ruleMessage
              out.2.1 out.2.2
      else
        evalRulePhase E ruleV ruleId ruleExpression ruleMessage resolvedCtx []
  | v => (v, [])

/-- The loop over `rule_set['rules']`. -/
def runRules (E : Engine) (resolvedCtx : Ctx) : List Val → List Val × List Val
  | [] => ([], [])
  | r :: rest =>
      let ro := processRule E resolvedCtx r
      let rro := runRules E resolvedCtx rest
      (ro.1 :: rro.1, ro.2 ++ rro.2)

/-- `not r['pass']` on a result entry (every entry the engine appends is
a dict carrying `pass`). -/
def entryPassTruthy (r : Val) : Bool :=
  (match r with
   | .dict kvs => dGetD kvs "pass" Val.none
   | _ => Val.none).truthy

/-- The value returned by `execute_rule_set` together with the rule-set
argument as the caller observes it afterwards (the engine mutates
requirement dicts in place; a Python exception is modelled as `.error`,
in which case no return value exists). -/
structure ExecOut where
  result : Val
  ruleSetAfter : Val

/-- View a value as a dict entry list (`execute_rule_set` only reaches
its `.get` calls when the rule set is a dict; the empty fallback is
unreachable there). -/
def asDict : Val → List (String × Val)
  | .dict kvs => kvs
  | _ => []

/-- The final result mapping assembled at the end of `execute_rule_set`
(`overall_pass` is `len(violations) == 0`). -/
def finalResult (rsKvs4 : List (String × Val)) (results violations : List Val) : Val :=
  .dict
    [("pass", .bool violations.isEmpty),
     ("violations", .list violations),
     ("results", .list results),
     ("rule_set_id", dGetD rsKvs4 "id" Val.none),
     ("rule_set_name", dGetD rsKvs4 "name" Val.none),
     ("on_fail", dGetD rsKvs4 "on_fail" defaultOnFail),
     ("applies", .bool true)]

/-- The `rules` loop and result assembly of `execute_rule_set`
(`preEntries` are the aggregated entries of the rule-set-level
`requires` phase). -/
def execRulesPhase (E : Engine) (rsKvs3 : List (String × Val)) (resolvedCtx : Ctx)
    (preEntries : List Val) : Except PyExn ExecOut := do
  let rules ← pyIter (dGetD rsKvs3 "rules" Val.none)
  let rr := runRules E resolvedCtx rules
  let rsKvs4 := match dGet? rsKvs3 "rules" with
    | some (.list _) => dSet rsKvs3 "rules" (.list rr.1)
    | _ => rsKvs3
  let results := preEntries ++ rr.2
  let violations := results.filter (fun r => !entryPassTruthy r)
  pure ⟨finalResult rsKvs4 results violations, Val.dict rsKvs4⟩

/-- The requirements-plus-rules phase of `execute_rule_set`, entered
when no `applies_when` condition decided the outcome. -/
def execMainPhase (E : Engine) (rsKvs2 : List (String × Val)) (context : Ctx) :
    Except PyExn ExecOut := do
  let requiresVal := dGetD rsKvs2 "requires" (.list [])
  let topOut ← (if requiresVal.truthy then do
      let sorted ← sortedRequires requiresVal
      let out := resolveTopReqs E context sorted context
      pure (dSet rsKvs2 "requires" (writeBackReqs requiresVal out.reqs),
        out.ctx, out.entries)
    else pure (rsKvs2, context, ([] : List Val)) :
      Except PyExn (List (String × Val) × Ctx × List Val))
  execRulesPhase E topOut.1 topOut.2.1 topOut.2.2

/-- `RuleEngine.execute_rule_set`. -/
def executeRuleSet (E : Engine) (ruleSet : Val) (context : Ctx) :
    Except PyExn ExecOut := do
  if !ruleSet.truthy then
    return ⟨invalidRuleSetResult, ruleSet⟩
  let hasRules ← pyIn (.str "rules") ruleSet
  if !hasRules then
    return ⟨invalidRuleSetResult, ruleSet⟩
  let appliesWhen0 ← pyGet ruleSet "applies_when" (.list [])
  let appliesWhen := match appliesWhen0 with
    | .none => Val.list []
    | v => v
  let rsKvs := asDict ruleSet
  let condOut ← (if appliesWhen.truthy then do
      let conds ← pyIter appliesWhen
      let co ← runConditions E rsKvs context conds
      pure (some co)
    else pure Option.none : Except PyExn (Option (List Val × Option Val)))
  let rsKvs2 := match dGet? rsKvs "applies_when" with
    | some (.list _) =>
        (match condOut with
         | some co => dSet rsKvs "applies_when" (.list co.1)
         | Option.none => rsKvs)
    | _ => rsKvs
  match condOut with
  | some (_, some res) => return ⟨res, Val.dict rsKvs2⟩
  | _ => execMainPhase E rsKvs2 context

/-! Concrete engine instances used by witnesses and counterexamples. -/

/-- A minimal engine: no configured databases, absent database file,
table-not-found SQLite errors, failing HTTP, and a custom-expression
sandbox whose `eval` raises `TypeError` (as it does when an expression
compares an absent-and-therefore-`None` operand). -/
def E0 : Engine where
  businessDbUrl := Option.none
  ruleDbUrl := Option.none
  fileExists := fun _ => false
  sqliteRun := fun _ _ => .sqlErr "no such table: users"
  hasPostgresql := false
  pgRun := fun _ _ => .exn ⟨.generic, "pg down"⟩
  hasPymysql := false
  myRun := fun _ _ => .exn ⟨.generic, "mysql down"⟩
  apiRun := fun _ => Option.none
  reSearch := fun _ _ => .ok false
  pyEvalBody := fun _ _ =>
    .error (⟨.typeError,
      sq ++ "<=" ++ sq ++ " not supported between instances of " ++ sq ++
        "NoneType" ++ sq ++ " and " ++ sq ++ "int" ++ sq⟩, Val.none)

/-- The `try` body of `evaluate_expression` on a mapping that matches
none of the recognised forms falls through to the final default. -/
theorem evalTry_default (E : Engine) (ctx : Ctx) (kvs : List (String × Val))
    (hc : dGet? kvs "custom" = Option.none)
    (hfov : dGet? kvs "field" = Option.none ∨ dGet? kvs "operator" = Option.none ∨
      dGet? kvs "value" = Option.none)
    (ha : dGet? kvs "and" = Option.none)
    (ho : dGet? kvs "or" = Option.none)
    (hn : dGet? kvs "not" = Option.none) :
    evalTry E (.dict kvs) ctx = .ok (.dict [("result", .bool true)]) := by
  rw [evalTry]
  simp only [hc]
  rcases hfov with hf | hf | hf <;>
    cases hfld : dGet? kvs "field" <;>
    cases hop2 : dGet? kvs "operator" <;>
    cases hval : dGet? kvs "value" <;>
    simp_all <;>
    (split
     · simp_all
     · split
       · simp_all
       · split <;> simp_all [pure, Except.pure])

/-- C10: for every context, `evaluate_expression` answers
`\x7b'result': True\x7d` on empty/absent expressions (`None`, the empty string,
the empty mapping) and on any mapping carrying neither a complete
`field`/`operator`/`value` triple nor any of the keys `custom`, `and`,
`or`, `not`: unrecognised expression shapes silently pass. -/
theorem C10_unrecognized_passes (E : Engine) (ctx : Ctx) :
    evaluateExpression E Val.none ctx = .dict [("result", .bool true)] ∧
    evaluateExpression E (.str "") ctx = .dict [("result", .bool true)] ∧
    evaluateExpression E (.dict []) ctx = .dict [("result", .bool true)] ∧
    (∀ kvs, dGet? kvs "custom" = Option.none →
      (dGet? kvs "field" = Option.none ∨ dGet? kvs "operator" = Option.none ∨
        dGet? kvs "value" = Option.none) →
      dGet? kvs "and" = Option.none → dGet? kvs "or" = Option.none →
      dGet? kvs "not" = Option.none →
      evaluateExpression E (.dict kvs) ctx = .dict [("result", .bool true)]) := by
  refine ⟨by rw [evaluateExpression]; rfl, by rw [evaluateExpression]; rfl,
    by rw [evaluateExpression]; rfl, ?_⟩
  intro kvs hc hfov ha ho hn
  rw [evaluateExpression]
  by_cases ht : (Val.dict kvs).truthy
  · simp [ht, evalTry_default E ctx kvs hc hfov ha ho hn]
  · simp [ht]

/-- C10 witness at a concrete unrecognised mapping. -/
theorem C10_witness :
    evaluateExpression E0 (.dict [("foo", .int 1)]) [] =
      .dict [("result", .bool true)] :=
  (C10_unrecognized_passes E0 []).2.2.2 [("foo", .int 1)]
    rfl (Or.inl rfl) rfl rfl rfl

theorem hasTokCharsF_nil (f : Nat) : hasTokCharsF f [] = false := by
  cases f <;> rfl

/-- A text in which the placeholder scan finds no match is emitted
character for character. -/
theorem scanSubF_id (repl : String → String) :
    ∀ (fuel : Nat) (l : List Char), hasTokCharsF fuel l = false →
      scanSubF repl fuel l = l := by
  intro fuel l
  induction fuel, l using scanSubF.induct repl with
  | case1 cs => intro h; rfl
  | case2 f => intro h; rfl
  | case3 f rest tok r htk =>
      intro h
      rw [hasTokCharsF, htk] at h
      simp at h
  | case4 f rest htk ih =>
      intro h
      rw [hasTokCharsF, htk] at h
      rw [scanSubF, htk]
      rw [ih h]
  | case5 f c rest hne ih =>
      intro h
      rw [hasTokCharsF] at h
      rotate_left
      · exact hne
      rw [scanSubF]
      rotate_left
      · exact hne
      rw [ih h]

/-- C8: placeholder substitution is the identity on text containing no
`\x7b\x7b...\x7d\x7d` token; a token whose dotted path fails to resolve (here: a
token not routed through the `input` special cases whose descent from
the top-level context fails) is kept verbatim; and in particular
substituting into `"hello \x7b\x7bmissing.x\x7d\x7d"` under the empty context
returns the text unchanged.  The function is pure: it consumes the
context and returns only the new string (no context is returned or
modified anywhere in `_replace_placeholders`). -/
theorem C8_substitution (text : String) (ctx : Ctx) :
    (hasPlaceholder text = false → replacePlaceholders text ctx = text) ∧
    (∀ tok, (pySplitDot tok).headD "" ≠ "input" →
      descendDict (Val.dict ctx) (pySplitDot tok) = Option.none →
      replaceMatch ctx tok = "\x7b\x7b" ++ tok ++ "\x7d\x7d") ∧
    replacePlaceholders ("hello \x7b\x7bmissing.x\x7d\x7d") [] =
      "hello \x7b\x7bmissing.x\x7d\x7d" := by
  refine ⟨?_, ?_, by decide⟩
  · intro h
    unfold replacePlaceholders
    rw [scanSubF_id _ _ _ h]
  · intro tok hinp hdesc
    unfold replaceMatch
    simp only [hdesc]
    rw [List.headD_eq_head?_getD] at hinp
    simp [hinp]

/-- C8 witness: the theorem applied at a token-free text and at a
concrete unresolvable token. -/
theorem C8_substitution_witness :
    replacePlaceholders "no tokens" [("a", .int 1)] = "no tokens" ∧
    replaceMatch [] "missing.x" = "\x7b\x7bmissing.x\x7d\x7d" :=
  ⟨(C8_substitution "no tokens" [("a", .int 1)]).1 (by decide),
   (C8_substitution "" []).2.1 "missing.x" (by decide) rfl⟩

/-- A serialised `ErrorResponse` starts with an opening brace and ends
with a closing one. -/
theorem isJsonShaped_errorResponseJson (et m : String) (c : Val) :
    isJsonShaped (errorResponseJson et m c) = true := by
  unfold errorResponseJson isJsonShaped
  rw [String.data_append, String.data_append]
  have hb : ("\x7b" : String).data = ['{'] := rfl
  have he : ("\x7d" : String).data = ['}'] := rfl
  rw [hb, he]
  simp only [← List.cons_append, ← List.append_assoc, List.getLast?_concat]
  simp

/-- C6: error wrapping is idempotent.  First half: the `except` block of
`_resolve_from_database` re-raises an exception whose message is already
structured-error JSON without modification.  Second half: the `except`
block of `evaluate_expression` stores such a message in the returned
`error` field byte for byte, adding no envelope. -/
theorem C6_idempotent_wrap :
    (∀ (e : PyExn) (ctxv : Val), isJsonShaped e.msg = true →
      dbErrorWrap e ctxv = e) ∧
    (∀ (E : Engine) (expr : Val) (ctx : Ctx) (e : PyExn),
      expr.truthy = true → evalTry E expr ctx = .error e →
      isJsonShaped e.msg = true →
      evaluateExpression E expr ctx =
        .dict [("result", .bool false), ("error", .str e.msg)]) := by
  constructor
  · intro e ctxv h
    unfold dbErrorWrap
    simp [h]
  · intro E expr ctx e ht herr hjson
    rw [evaluateExpression]
    simp [ht, herr, exprCatch, hjson]

/-- An engine whose custom-expression sandbox raises a `ValueError`. -/
def valueErrEngine : Engine :=
  { E0 with pyEvalBody := fun _ _ => .error (⟨.valueError, "boom"⟩, Val.none) }

/-- The structured error the sandbox failure above is wrapped into. -/
def boomJson : String :=
  exprErrJson ("自定义表达式评估错误: boom")
    (.dict [("custom_expression", .str "x"), ("substituted_expr", Val.none)])

/-- C6 witness: a concrete already-JSON message passes both wrapping
steps unchanged. -/
theorem C6_idempotent_wrap_witness :
    dbErrorWrap ⟨.generic, boomJson⟩ (.dict []) = ⟨.generic, boomJson⟩ ∧
    evaluateExpression valueErrEngine (.dict [("custom", .str "x")]) [] =
      .dict [("result", .bool false), ("error", .str boomJson)] := by
  constructor
  · exact C6_idempotent_wrap.1 ⟨.generic, boomJson⟩ (.dict [])
      (isJsonShaped_errorResponseJson _ _ _)
  · refine C6_idempotent_wrap.2 valueErrEngine (.dict [("custom", .str "x")]) []
      ⟨.generic, boomJson⟩ rfl ?_ (isJsonShaped_errorResponseJson _ _ _)
    rw [evalTry]
    simp [dGet?, evaluateCustomExpression, valueErrEngine, E0, lenientKinds,
      boomJson, strContains, listHasSub, listStartsWith]

theorem listStartsWith_nil (l : List Char) : listStartsWith l [] = true := by
  cases l <;> rfl

theorem listStartsWith_append {l pat : List Char} (z : List Char)
    (h : listStartsWith l pat = true) : listStartsWith (l ++ z) pat = true := by
  induction pat generalizing l with
  | nil => exact listStartsWith_nil _
  | cons p ps ih =>
      cases l with
      | nil => simp [listStartsWith] at h
      | cons a as =>
          rw [listStartsWith] at h
          rw [List.cons_append, listStartsWith]
          simp only [Bool.and_eq_true] at h ⊢
          exact ⟨h.1, ih h.2⟩

theorem listHasSub_any_nil (l : List Char) : listHasSub l [] = true := by
  cases l <;> rfl

theorem listHasSub_append_right {l pat : List Char} (z : List Char)
    (h : listHasSub l pat = true) : listHasSub (l ++ z) pat = true := by
  induction l with
  | nil =>
      rw [listHasSub] at h
      simp at h
      subst h
      simp [listHasSub_any_nil]
  | cons c rest ih =>
      rw [listHasSub] at h
      rw [List.cons_append, listHasSub]
      simp only [Bool.or_eq_true] at h ⊢
      rcases h with h | h
      · exact Or.inl (by rw [← List.cons_append]; exact listStartsWith_append z h)
      · exact Or.inr (ih h)

theorem listHasSub_append_left {l pat : List Char} (x : List Char)
    (h : listHasSub l pat = true) : listHasSub (x ++ l) pat = true := by
  induction x with
  | nil => exact h
  | cons c rest ih =>
      rw [List.cons_append, listHasSub]
      simp only [Bool.or_eq_true]
      exact Or.inr ih

theorem strContains_append_right {a : String} (b : String) {pat : String}
    (h : strContains a pat = true) : strContains (a ++ b) pat = true := by
  unfold strContains at h ⊢
  rw [String.data_append]
  exact listHasSub_append_right b.data h

theorem strContains_append_left {b : String} (a : String) {pat : String}
    (h : strContains b pat = true) : strContains (a ++ b) pat = true := by
  unfold strContains at h ⊢
  rw [String.data_append]
  exact listHasSub_append_left a.data h

/-- Every expression-evaluation error response names its machine
readable type. -/
theorem exprErrJson_mentions (m : String) (c : Val) :
    strContains (exprErrJson m c) "expression_evaluation_error" = true := by
  unfold exprErrJson errorResponseJson
  have h0 : strContains (jsonStr "expression_evaluation_error")
      "expression_evaluation_error" = true := by decide
  apply strContains_append_right
  apply strContains_append_left
  apply strContains_append_right
  apply strContains_append_right
  exact strContains_append_left _ h0

/-- C7: a custom expression whose sandboxed evaluation fails on a
missing or `None` operand — a `TypeError`, `AttributeError` (with
`IndexError`/`NameError`, Python's other missing-operand signals), or
any failure whose message mentions `NoneType` — makes `evaluate_expression`
return exactly `\x7b'result': False\x7d`, with no `error` key; every other
custom-expression failure surfaces as a structured error whose payload
carries `error_type = expression_evaluation_error`. -/
theorem C7_custom_leniency (E : Engine) (s : String) (ctx : Ctx) (e : PyExn)
    (se : Val) (hs : s ≠ "")
    (hraise : E.pyEvalBody (.str s) ctx = .error (e, se)) :
    (lenientKinds.contains e.kind = true ∨ strContains e.msg "NoneType" = true →
      evaluateExpression E (.str s) ctx = .dict [("result", .bool false)]) ∧
    (lenientKinds.contains e.kind = false → strContains e.msg "NoneType" = false →
      evaluateExpression E (.str s) ctx =
        .dict [("result", .bool false),
          ("error", .str (exprErrJson ("自定义表达式评估错误: " ++ e.msg)
            (.dict [("custom_expression", .str s), ("substituted_expr", se)])))] ∧
      strContains (exprErrJson ("自定义表达式评估错误: " ++ e.msg)
          (.dict [("custom_expression", .str s), ("substituted_expr", se)]))
        "expression_evaluation_error" = true) := by
  constructor
  · intro hlen
    rw [evaluateExpression]
    have ht : (Val.str s).truthy = true := by simp [Val.truthy, hs]
    rw [evalTry]
    rcases hlen with hl | hl
    · have hmem : e.kind ∈ lenientKinds := by simpa using hl
      simp [ht, evaluateCustomExpression, hraise, hmem, pure, Except.pure,
        bind, Except.bind, Val.truthy, hs]
    · simp [ht, evaluateCustomExpression, hraise, hl, pure, Except.pure,
        bind, Except.bind, Val.truthy, hs]
  · intro hk hm
    rw [evaluateExpression]
    have ht : (Val.str s).truthy = true := by simp [Val.truthy, hs]
    refine ⟨?_, exprErrJson_mentions _ _⟩
    rw [evalTry]
    have hmem : e.kind ∉ lenientKinds := by simpa using hk
    simp [ht, evaluateCustomExpression, hraise, hmem, hm, exprCatch,
      isJsonShaped_errorResponseJson, exprErrJson, bind, Except.bind]

/-- C7 witness: under `E0` (whose sandbox raises the `TypeError` that a
comparison against an absent key produces), the expression of the
specification example evaluates to a bare false result. -/
theorem C7_custom_leniency_witness :
    evaluateExpression E0 (.str "context.count <= 3") [] =
      .dict [("result", .bool false)] :=
  (C7_custom_leniency E0 "context.count <= 3" []
      ⟨.typeError,
        sq ++ "<=" ++ sq ++ " not supported between instances of " ++ sq ++
          "NoneType" ++ sq ++ " and " ++ sq ++ "int" ++ sq⟩
      Val.none (by decide) rfl).1 (Or.inl rfl)

/-- An engine whose PostgreSQL driver is installed and whose queries
come back with a single column and zero rows. -/
def pgZeroEngine : Engine :=
  { E0 with hasPostgresql := true, pgRun := fun _ _ => .ok ["a"] [] 0 }

/-- A database-source requirement routed to the PostgreSQL backend. -/
def pgReq : Val :=
  .dict [("name", .str "x"), ("type", .str "database"),
         ("db_type", .str "postgresql"), ("db_url", .str "postgresql://h/db"),
         ("query", .str "SELECT a FROM t")]

/-- C1 counterexample: a `database`-source requirement resolved through
the PostgreSQL backend does not get the claimed normalisation — a SELECT
returning zero rows resolves to the empty list, not to `None` (and a
single-row/single-column SELECT would likewise stay a list of row
mappings). -/
theorem C1_counterexample :
    resolveData pgZeroEngine pgReq [] = .ok (Val.list []) ∧
    Val.list [] ≠ Val.none := by
  constructor
  · simp +decide [resolveData, pgReq, dGet?, dGetD, pyEq, resolveFromDatabase, queryPostgres,
      pgZeroEngine, E0, Val.truthy, replacePlaceholders, scanSubF, strReplace,
      pure, Except.pure, bind, Except.bind]
  · simp

/-- An engine whose SQLite database file exists; query outcomes are
supplied per test below. -/
def sqliteOkEngine (rows : List Row) (rowcount : Int) : Engine :=
  { E0 with
    fileExists := fun _ => true
    sqliteRun := fun _ _ => .ok rows rowcount }

/-- C1 (amended to the SQLite backend, where `_query_sqlite` implements
the normalisation): a non-SELECT statement yields the affected-row
count; a SELECT with zero rows yields `None`; with exactly one row and
exactly one column the bare scalar; with one row and several columns the
row mapping; with several rows the list of row mappings.  The
PostgreSQL/MySQL backends return the raw list of row mappings for every
SELECT (see the counterexample). -/
theorem C1_sqlite_normalization (E : Engine) (query : String) (dbUrl : Val)
    (path : String)
    (hpath : sqlitePathSel E dbUrl = .ok path)
    (hex : E.fileExists path = true) :
    (∀ rows rowcount, E.sqliteRun path query = .ok rows rowcount →
      isSelectQuery query = false →
      querySqlite E query dbUrl = .ok (.int rowcount)) ∧
    (∀ rowcount, E.sqliteRun path query = .ok [] rowcount →
      isSelectQuery query = true →
      querySqlite E query dbUrl = .ok Val.none) ∧
    (∀ k v rowcount, E.sqliteRun path query = .ok [[(k, v)]] rowcount →
      isSelectQuery query = true →
      querySqlite E query dbUrl = .ok v) ∧
    (∀ row rowcount, E.sqliteRun path query = .ok [row] rowcount →
      isSelectQuery query = true → (dictFromPairs row).length ≠ 1 →
      querySqlite E query dbUrl = .ok (.dict (dictFromPairs row))) ∧
    (∀ r1 r2 rs rowcount, E.sqliteRun path query = .ok (r1 :: r2 :: rs) rowcount →
      isSelectQuery query = true →
      querySqlite E query dbUrl =
        .ok (.list ((r1 :: r2 :: rs).map (fun r => .dict (dictFromPairs r))))) := by
  refine ⟨?_, ?_, ?_, ?_, ?_⟩
  · intro rows rowcount hrun hsel
    rw [querySqlite]
    simp [hpath, hex, hrun, hsel, pure, Except.pure, bind, Except.bind]
  · intro rowcount hrun hsel
    rw [querySqlite]
    simp [hpath, hex, hrun, hsel, normalizeSqliteRows,
      pure, Except.pure, bind, Except.bind]
  · intro k v rowcount hrun hsel
    rw [querySqlite]
    simp [hpath, hex, hrun, hsel, normalizeSqliteRows, dictFromPairs,
      pure, Except.pure, bind, Except.bind]
  · intro row rowcount hrun hsel hlen
    rw [querySqlite]
    simp only [hpath, hex, hrun, hsel, pure, Except.pure, bind, Except.bind]
    cases hdp : dictFromPairs row with
    | nil => simp [normalizeSqliteRows, hdp, pure, Except.pure, bind, Except.bind]
    | cons kv rest =>
        cases rest with
        | nil => exact absurd (by rw [hdp]; rfl) hlen
        | cons kv2 rest2 =>
            simp [normalizeSqliteRows, hdp, pure, Except.pure, bind, Except.bind]
  · intro r1 r2 rs rowcount hrun hsel
    rw [querySqlite]
    simp [hpath, hex, hrun, hsel, normalizeSqliteRows,
      pure, Except.pure, bind, Except.bind]

/-- C1 witness: a one-row, one-column `SELECT COUNT(*)` resolves to the
bare integer on the SQLite backend. -/
theorem C1_sqlite_normalization_witness :
    querySqlite (sqliteOkEngine [[("COUNT(*)", .int 3)]] 0)
      "SELECT COUNT(*) FROM t" (.str "sqlite:///db.db") = .ok (.int 3) :=
  (C1_sqlite_normalization (sqliteOkEngine [[("COUNT(*)", .int 3)]] 0)
      "SELECT COUNT(*) FROM t" (.str "sqlite:///db.db") "db.db" rfl rfl).2.2.1
    "COUNT(*)" (.int 3) 0 rfl (by decide)

/-- C5 counterexample: a rule set whose `rules` value is present but not
a sequence is not caught by the validation — with `rules` set to the
string `"x"` the engine iterates the characters, skips them as non-dict
rules, and returns a passing result instead of the invalid-input
result. -/
theorem C5_counterexample :
    executeRuleSet E0 (.dict [("rules", .str "x")]) [] =
      .ok ⟨.dict [("pass", .bool true), ("violations", .list []),
            ("results", .list []), ("rule_set_id", Val.none),
            ("rule_set_name", Val.none), ("on_fail", defaultOnFail),
            ("applies", .bool true)],
          .dict [("rules", .str "x")]⟩ ∧
    (Val.dict [("pass", .bool true), ("violations", .list []),
      ("results", .list []), ("rule_set_id", Val.none),
      ("rule_set_name", Val.none), ("on_fail", defaultOnFail),
      ("applies", .bool true)]) ≠ invalidRuleSetResult := by
  constructor
  · simp +decide [executeRuleSet, execMainPhase, execRulesPhase, finalResult,
      asDict, pyIn, dHas, dGet?, dGetD, pyGet, Val.truthy,
      pyIter, pySub, runRules, processRule, entryPassTruthy,
      pure, Except.pure, bind, Except.bind]
  · simp [invalidRuleSetResult]

/-- C5 (amended): the immediate invalid-input result
`\x7bpass: false, violations: [], error: "Invalid rule set"\x7d` is returned
exactly when the rule set is falsy or has no `rules` key; a present
non-sequence `rules` value is not validated (iterable values are
iterated as rules, non-iterable ones raise a `TypeError` that escapes). -/
theorem C5_invalid_input (E : Engine) (ruleSet : Val) (context : Ctx)
    (h : ruleSet.truthy = false ∨ pyIn (.str "rules") ruleSet = .ok false) :
    executeRuleSet E ruleSet context = .ok ⟨invalidRuleSetResult, ruleSet⟩ ∧
    invalidRuleSetResult = .dict [("pass", .bool false), ("violations", .list []),
      ("error", .str "Invalid rule set")] := by
  refine ⟨?_, rfl⟩
  rcases h with h | h
  · rw [executeRuleSet]
    simp [h, pure, Except.pure, bind, Except.bind]
  · rw [executeRuleSet]
    cases ht : ruleSet.truthy
    · simp [ht, pure, Except.pure, bind, Except.bind]
    · simp [ht, h, pure, Except.pure, bind, Except.bind]

/-- C5 witness: a truthy rule set without a `rules` key yields the
invalid-input result. -/
theorem C5_invalid_input_witness :
    executeRuleSet E0 (.dict [("x", .int 1)]) [] =
      .ok ⟨invalidRuleSetResult, .dict [("x", .int 1)]⟩ :=
  (C5_invalid_input E0 (.dict [("x", .int 1)]) [] (Or.inr rfl)).1

/-- A rule set with one rule-set-level requirement lacking a `type`. -/
def rsC9 : Val :=
  .dict [("rules", .list []), ("requires", .list [.dict [("name", .str "x")]])]

/-- The same rule set as the caller observes it after execution: the
requirement dict has gained `type = 'context'`. -/
def rsC9after : Val :=
  .dict [("rules", .list []),
         ("requires", .list [.dict [("name", .str "x"), ("type", .str "context")]])]

/-- C9 counterexample: the rule set is not immutable during evaluation —
`execute_rule_set` writes `req['type'] = 'context'` into the caller's
requirement dict, so the rule-set argument differs after the call. -/
theorem C9_counterexample :
    (executeRuleSet E0 rsC9 []).map (fun o => o.ruleSetAfter) = .ok rsC9after ∧
    rsC9after ≠ rsC9 := by
  constructor
  · simp +decide [executeRuleSet, execMainPhase, execRulesPhase, finalResult,
      asDict, rsC9, rsC9after, pyIn, dHas, dGet?,
      dGetD, dSet, pyGet, Val.truthy, pyIter, pySub, sortedRequires,
      sortByPriority, idxTag, prioritize, sourcePriority, resolveTopReqs,
      reqQualifies, addTypeDefault, resolveData, resolveFromContext, bindName,
      writeBackReqs, List.find?, pyEq, runRules, entryPassTruthy,
      pure, Except.pure, bind, Except.bind, Except.map]
  · simp [rsC9, rsC9after]

/-- A requirement descriptor the type-defaulting mutation leaves alone:
either it is not a qualifying dict (no `name`), or it already has a
`type`. -/
def reqUntouched (r : Val) : Bool :=
  match r with
  | .dict kvs => !(dHas kvs "name") || dHas kvs "type"
  | _ => true

/-- All requirement positions of a `requires` value are untouched. -/
def reqsUntouched (v : Val) : Bool :=
  match v with
  | .list xs => xs.all reqUntouched
  | _ => true

/-- Every requirement descriptor of the rule set (rule-set level, per
rule, and per `applies_when` condition) already carries its `type`. -/
def ruleSetUntouchable (rs : Val) : Bool :=
  match rs with
  | .dict kvs =>
      reqsUntouched (dGetD kvs "requires" (.list [])) &&
      (match dGetD kvs "rules" (.list []) with
       | .list rules => rules.all (fun r =>
           match r with
           | .dict rkvs => reqsUntouched (dGetD rkvs "requires" (.list []))
           | _ => true)
       | _ => true) &&
      (match dGetD kvs "applies_when" (.list []) with
       | .list conds => conds.all (fun c =>
           match c with
           | .dict ckvs => reqsUntouched (dGetD ckvs "requires" (.list []))
           | _ => true)
       | _ => true)
  | _ => true

theorem addTypeDefault_untouched {r : Val} (hu : reqUntouched r = true)
    (hq : reqQualifies r = true) : addTypeDefault r = r := by
  cases r <;> simp [reqQualifies] at hq
  rename_i kvs
  simp [reqUntouched] at hu
  rcases hu with hu | hu
  · exact absurd hq (by simp [hu])
  · simp [addTypeDefault, hu]

theorem mem_idxTag {n : Nat} {xs : List Val} {p : Nat × Val}
    (h : p ∈ idxTag n xs) : p.2 ∈ xs ∧ n ≤ p.1 ∧ xs.get? (p.1 - n) = some p.2 := by
  induction xs generalizing n with
  | nil => simp [idxTag] at h
  | cons x rest ih =>
      rw [idxTag] at h
      rcases List.mem_cons.mp h with h | h
      · subst h
        simp
      · obtain ⟨h1, h2, h3⟩ := ih h
        refine ⟨List.mem_cons_of_mem _ h1, by omega, ?_⟩
        have : p.1 - n = (p.1 - (n + 1)) + 1 := by omega
        rw [this]
        simpa using h3

theorem prioritize_mem {tl : List (Nat × Val)} {out : List (Nat × Nat × Val)}
    (h : prioritize tl = .ok out) : ∀ q ∈ out, q.2 ∈ tl := by
  induction tl generalizing out with
  | nil =>
      rw [prioritize] at h
      cases h
      simp
  | cons iv rest ih =>
      rw [prioritize] at h
      cases hp : sourcePriority iv.2 with
      | error e => rw [hp] at h; simp [bind, Except.bind] at h
      | ok p =>
          rw [hp] at h
          simp only [bind, Except.bind] at h
          cases hr : prioritize rest with
          | error e => rw [hr] at h; simp at h
          | ok r =>
              rw [hr] at h
              simp [pure, Except.pure] at h
              subst h
              intro q hq
              rcases List.mem_cons.mp hq with hq | hq
              · subst hq; simp
              · exact List.mem_cons_of_mem _ (ih hr q hq)

theorem sortByPriority_mem {elems : List Val} {tl : List (Nat × Val)}
    (h : sortByPriority elems = .ok tl) : ∀ p ∈ tl, p ∈ idxTag 0 elems := by
  unfold sortByPriority at h
  cases hp : prioritize (idxTag 0 elems) with
  | error e => rw [hp] at h; simp [bind, Except.bind] at h
  | ok withPri =>
      rw [hp] at h
      simp [bind, Except.bind, pure, Except.pure] at h
      subst h
      intro p hp2
      simp only [List.mem_append, List.mem_map, List.mem_filter] at hp2
      rcases hp2 with h7 | h7 | h7 | h7 | h7 | h7 | h7 <;>
        (obtain ⟨q, ⟨hq, _⟩, hqe⟩ := h7; subst hqe; exact prioritize_mem hp q hq)

theorem idxTag_map_snd (n : Nat) (xs : List Val) :
    (idxTag n xs).map (fun iv => iv.2) = xs := by
  induction xs generalizing n with
  | nil => rfl
  | cons x rest ih => rw [idxTag]; simp [ih]

/-- If the processed list is a sub-multiset of the position-tagged
original with unchanged payloads, writing it back reproduces the
original list. -/
theorem writeBackReqs_id {xs : List Val} {tl : List (Nat × Val)}
    (hsub : ∀ p ∈ tl, p ∈ idxTag 0 xs) :
    writeBackReqs (.list xs) tl = .list xs := by
  have hpt : ∀ iv ∈ idxTag 0 xs,
      (match tl.find? (fun p => p.1 == iv.1) with
       | some p => p.2
       | Option.none => iv.2) = iv.2 := by
    intro iv hiv
    cases hf : tl.find? (fun p => p.1 == iv.1) with
    | none => rfl
    | some p =>
        have hmem := hsub p (List.mem_of_find?_eq_some hf)
        have hidx := List.find?_some hf
        obtain ⟨_, _, hget⟩ := mem_idxTag hmem
        obtain ⟨_, _, hget2⟩ := mem_idxTag hiv
        simp only [beq_iff_eq] at hidx
        rw [hidx] at hget
        rw [hget2] at hget
        simpa using hget.symm
  show Val.list ((idxTag 0 xs).map _) = Val.list xs
  rw [List.map_congr_left hpt, idxTag_map_snd]

theorem pyIter_untouched {v : Val} {elems : List Val}
    (hu : reqsUntouched v = true) (h : pyIter v = .ok elems) :
    ∀ e ∈ elems, reqUntouched e = true := by
  cases v with
  | list xs =>
      rw [pyIter] at h
      cases h
      simpa [reqsUntouched, List.all_eq_true] using hu
  | dict kvs =>
      rw [pyIter] at h
      cases h
      intro e he
      simp only [List.mem_map] at he
      obtain ⟨kv, _, hkv⟩ := he
      subst hkv
      rfl
  | str s =>
      rw [pyIter] at h
      cases h
      intro e he
      simp only [List.mem_map] at he
      obtain ⟨c, _, hc⟩ := he
      subst hc
      rfl
  | none => simp [pyIter] at h
  | bool b => simp [pyIter] at h
  | int n => simp [pyIter] at h
  | pyFloat s => simp [pyIter] at h

theorem sortedRequires_untouched {v : Val} {tl : List (Nat × Val)}
    (hu : reqsUntouched v = true) (h : sortedRequires v = .ok tl) :
    ∀ p ∈ tl, reqUntouched p.2 = true := by
  unfold sortedRequires at h
  cases hi : pyIter v with
  | error e => rw [hi] at h; simp [bind, Except.bind] at h
  | ok elems =>
      rw [hi] at h
      simp only [bind, Except.bind] at h
      intro p hp
      have hm := sortByPriority_mem h p hp
      exact pyIter_untouched hu hi p.2 (mem_idxTag hm).1

theorem resolveCondReqs_untouched (E : Engine) {tl : List (Nat × Val)} (ctx : Ctx)
    (hu : ∀ p ∈ tl, reqUntouched p.2 = true) :
    (resolveCondReqs E tl ctx).reqs = tl := by
  induction tl generalizing ctx with
  | nil => rfl
  | cons p rest ih =>
      obtain ⟨i, r⟩ := p
      rw [resolveCondReqs]
      have hr : reqUntouched r = true := hu (i, r) (by simp)
      have hrest : ∀ q ∈ rest, reqUntouched q.2 = true :=
        fun q hq => hu q (List.mem_cons_of_mem _ hq)
      by_cases hq : reqQualifies r
      · have had := addTypeDefault_untouched hr hq
        simp only [hq, if_true, had]
        cases resolveData E r ctx <;> simp [ih _ hrest]
      · simp only [hq, Bool.false_eq_true, if_false]
        simp [ih _ hrest]

theorem resolveTopReqs_untouched (E : Engine) (origCtx : Ctx)
    {tl : List (Nat × Val)} (resCtx : Ctx)
    (hu : ∀ p ∈ tl, reqUntouched p.2 = true) :
    (resolveTopReqs E origCtx tl resCtx).reqs = tl := by
  induction tl generalizing resCtx with
  | nil => rfl
  | cons p rest ih =>
      obtain ⟨i, r⟩ := p
      rw [resolveTopReqs]
      have hr : reqUntouched r = true := hu (i, r) (by simp)
      have hrest : ∀ q ∈ rest, reqUntouched q.2 = true :=
        fun q hq => hu q (List.mem_cons_of_mem _ hq)
      by_cases hq : reqQualifies r
      · have had := addTypeDefault_untouched hr hq
        simp only [hq, if_true, had]
        cases resolveData E r origCtx <;> simp [ih _ hrest]
      · simp only [hq, Bool.false_eq_true, if_false]
        simp [ih _ hrest]

theorem resolveRuleReqs_untouched (E : Engine) (ruleKvs : List (String × Val))
    (requiresVal : Val) (ruleId : Val) {rem : List (Nat × Val)}
    (acc : List (Nat × Val)) (ruleCtx : Ctx) (entries : List Val)
    (hu : ∀ p ∈ rem, reqUntouched p.2 = true) :
    (resolveRuleReqs E ruleKvs requiresVal ruleId acc rem ruleCtx entries).1 =
      acc ++ rem := by
  induction rem generalizing acc ruleCtx entries with
  | nil => simp [resolveRuleReqs]
  | cons p rest ih =>
      obtain ⟨i, r⟩ := p
      rw [resolveRuleReqs]
      have hr : reqUntouched r = true := hu (i, r) (by simp)
      have hrest : ∀ q ∈ rest, reqUntouched q.2 = true :=
        fun q hq => hu q (List.mem_cons_of_mem _ hq)
      by_cases hq : reqQualifies r
      · have had := addTypeDefault_untouched hr hq
        simp only [hq, if_true, had]
        cases hres : resolveData E r ruleCtx with
        | ok v => cases v <;> (rw [ih _ _ _ hrest]; simp)
        | error e => rw [ih _ _ _ hrest]; simp
      · simp only [hq, Bool.false_eq_true, if_false]
        rw [ih _ _ _ hrest]
        simp

theorem dSet_self {kvs : List (String × Val)} {k : String} {v : Val}
    (h : dGet? kvs k = some v) : dSet kvs k v = kvs := by
  induction kvs with
  | nil => simp [dGet?] at h
  | cons kv rest ih =>
      obtain ⟨k0, v0⟩ := kv
      rw [dGet?] at h
      rw [dSet]
      by_cases hk : k0 == k
      · simp only [hk, if_true] at h ⊢
        cases h
        rfl
      · simp only [hk, Bool.false_eq_true, if_false] at h ⊢
        rw [ih h]

theorem sortedRequires_mem_list {xs : List Val} {tl : List (Nat × Val)}
    (h : sortedRequires (.list xs) = .ok tl) : ∀ p ∈ tl, p ∈ idxTag 0 xs := by
  unfold sortedRequires at h
  rw [pyIter] at h
  simp only [bind, Except.bind] at h
  exact sortByPriority_mem h

/-- Writing back an untouched processed list reproduces any `requires`
value. -/
theorem writeBackReqs_id' {v : Val} {tl : List (Nat × Val)}
    (h : sortedRequires v = .ok tl) : writeBackReqs v tl = v := by
  cases v with
  | list xs => exact writeBackReqs_id (sortedRequires_mem_list h)
  | none => rfl
  | bool b => rfl
  | int n => rfl
  | pyFloat s => rfl
  | str s => rfl
  | dict kvs => rfl

theorem processCondition_untouched (E : Engine) (rsKvs : List (String × Val))
    (context : Ctx) (ckvs : List (String × Val))
    (hu : reqsUntouched (dGetD ckvs "requires" (.list [])) = true)
    {c2 : Val} {res : Option Val}
    (h : processCondition E rsKvs context (.dict ckvs) = .ok (c2, res)) :
    c2 = .dict ckvs := by
  simp only [processCondition] at h
  split at h
  · rename_i hbr
    cases hs : sortedRequires (dGetD ckvs "requires" (.list [])) with
    | error e => rw [hs] at h; simp [bind, Except.bind] at h
    | ok tl =>
        rw [hs] at h
        simp only [bind, Except.bind] at h
        have hreqs := resolveCondReqs_untouched E context
          (sortedRequires_untouched hu hs)
        rw [hreqs] at h
        rw [writeBackReqs_id' hs] at h
        cases hget : dGet? ckvs "requires" with
        | none =>
            rw [dGetD, hget] at hbr
            simp [Val.truthy] at hbr
        | some v =>
            have hv : dGetD ckvs "requires" (.list []) = v := by
              simp [dGetD, hget]
            rw [hv, dSet_self hget] at h
            split at h
            · simp only [pure, Except.pure, Except.ok.injEq, Prod.mk.injEq] at h
              exact h.1.symm
            · split at h
              · simp only [pure, Except.pure, Except.ok.injEq, Prod.mk.injEq] at h
                exact h.1.symm
              · split at h <;>
                  (simp only [pure, Except.pure, Except.ok.injEq,
                     Prod.mk.injEq] at h
                   exact h.1.symm)
  · split at h
    · cases hra : resolveData E
          (.dict [("name", .str "field_value"), ("source", .str "context"),
                  ("field", dGetD ckvs "field" Val.none)]) context with
      | error e => rw [hra] at h; simp [bind, Except.bind] at h
      | ok actual =>
          rw [hra] at h
          simp only [bind, Except.bind] at h
          cases hop : evaluateOperation E (dGetD ckvs "operator" Val.none) actual
              (dGetD ckvs "value" Val.none) with
          | error e => rw [hop] at h; simp [bind, Except.bind] at h
          | ok opr =>
              rw [hop] at h
              simp only [bind, Except.bind] at h
              split at h <;> simp_all [pure, Except.pure]
    · simp_all [pure, Except.pure]

/-- A condition or rule element whose own `requires` value is untouched
(non-dict elements carry no requirement dicts the engine writes to). -/
def itemUntouched (c : Val) : Bool :=
  match c with
  | .dict ckvs => reqsUntouched (dGetD ckvs "requires" (.list []))
  | _ => true

theorem iterItems_untouched {v : Val} {elems : List Val}
    (hl : ∀ xs, v = Val.list xs → ∀ c ∈ xs, itemUntouched c = true)
    (h : pyIter v = .ok elems) : ∀ c ∈ elems, itemUntouched c = true := by
  cases v with
  | list xs =>
      rw [pyIter] at h
      injection h with h2
      subst h2
      exact hl _ rfl
  | dict kvs =>
      rw [pyIter] at h
      cases h
      intro c hc
      simp only [List.mem_map] at hc
      obtain ⟨kv, _, hkv⟩ := hc
      subst hkv
      rfl
  | str s =>
      rw [pyIter] at h
      cases h
      intro c hc
      simp only [List.mem_map] at hc
      obtain ⟨ch, _, hch⟩ := hc
      subst hch
      rfl
  | none => simp [pyIter] at h
  | bool b => simp [pyIter] at h
  | int n => simp [pyIter] at h
  | pyFloat s => simp [pyIter] at h

theorem runConditions_untouched (E : Engine) (rsKvs : List (String × Val))
    (context : Ctx) {conds : List Val}
    (hu : ∀ c ∈ conds, itemUntouched c = true)
    {conds2 : List Val} {out : Option Val}
    (h : runConditions E rsKvs context conds = .ok (conds2, out)) :
    conds2 = conds := by
  induction conds generalizing conds2 out with
  | nil =>
      rw [runConditions] at h
      simp only [Except.ok.injEq, Prod.mk.injEq] at h
      exact h.1.symm
  | cons c rest ih =>
      rw [runConditions] at h
      cases hp : processCondition E rsKvs context c with
      | error e => rw [hp] at h; simp [bind, Except.bind] at h
      | ok pr =>
          obtain ⟨c2, o⟩ := pr
          rw [hp] at h
          simp only [bind, Except.bind] at h
          have hc2 : c2 = c := by
            cases c with
            | dict ckvs =>
                exact processCondition_untouched E rsKvs context ckvs
                  (by simpa [itemUntouched] using hu (.dict ckvs) (by simp)) hp
            | none =>
                simp only [processCondition, pure, Except.pure, Except.ok.injEq,
                  Prod.mk.injEq] at hp
                exact hp.1.symm
            | bool b =>
                simp only [processCondition, pure, Except.pure, Except.ok.injEq,
                  Prod.mk.injEq] at hp
                exact hp.1.symm
            | int n =>
                simp only [processCondition, pure, Except.pure, Except.ok.injEq,
                  Prod.mk.injEq] at hp
                exact hp.1.symm
            | pyFloat s =>
                simp only [processCondition, pure, Except.pure, Except.ok.injEq,
                  Prod.mk.injEq] at hp
                exact hp.1.symm
            | str s =>
                simp only [processCondition, pure, Except.pure, Except.ok.injEq,
                  Prod.mk.injEq] at hp
                exact hp.1.symm
            | list xs =>
                simp only [processCondition, pure, Except.pure, Except.ok.injEq,
                  Prod.mk.injEq] at hp
                exact hp.1.symm
          subst hc2
          cases o with
          | some res0 =>
              simp only [pure, Except.pure, Except.ok.injEq, Prod.mk.injEq] at h
              exact h.1.symm
          | none =>
              cases hr : runConditions E rsKvs context rest with
              | error e => rw [hr] at h; simp [bind, Except.bind] at h
              | ok pr2 =>
                  obtain ⟨rest2, out2⟩ := pr2
                  rw [hr] at h
                  simp only [bind, Except.bind, pure, Except.pure,
                    Except.ok.injEq, Prod.mk.injEq] at h
                  have hrest := ih (fun q hq => hu q (List.mem_cons_of_mem _ hq)) hr
                  rw [← h.1, hrest]

theorem evalRulePhase_fst (E : Engine) (v ruleId ruleExpression ruleMessage : Val)
    (ruleCtx : Ctx) (entries : List Val) :
    (evalRulePhase E v ruleId ruleExpression ruleMessage ruleCtx entries).1 = v := by
  simp only [evalRulePhase]
  split <;> rfl

theorem processRule_untouched (E : Engine) (resolvedCtx : Ctx) {ruleV : Val}
    (hu : itemUntouched ruleV = true) :
    (processRule E resolvedCtx ruleV).1 = ruleV := by
  cases ruleV with
  | dict rkvs =>
      simp only [processRule]
      cases ht : (dGetD rkvs "requires" (.list [])).truthy with
      | false =>
          simp only [ht, Bool.false_eq_true, if_false]
          exact evalRulePhase_fst E (.dict rkvs) _ _ _ resolvedCtx []
      | true =>
          simp only [ht, if_true]
          cases hs : sortedRequires (dGetD rkvs "requires" (.list [])) with
          | error e => rfl
          | ok sorted =>
              dsimp only
              have hru := resolveRuleReqs_untouched E rkvs
                (dGetD rkvs "requires" (.list []))
                (dGetD rkvs "id" (.str "unknown")) [] resolvedCtx []
                (sortedRequires_untouched (by simpa [itemUntouched] using hu) hs)
              rw [hru]
              simp only [List.nil_append]
              rw [writeBackReqs_id' hs]
              rw [evalRulePhase_fst]
              cases hget : dGet? rkvs "requires" with
              | none =>
                  rw [dGetD, hget] at ht
                  simp [Val.truthy] at ht
              | some v =>
                  have hv : dGetD rkvs "requires" (.list []) = v := by
                    simp [dGetD, hget]
                  rw [hv, dSet_self hget]
  | none => rfl
  | bool b => rfl
  | int n => rfl
  | pyFloat s => rfl
  | str s => rfl
  | list xs => rfl

theorem runRules_untouched (E : Engine) (resolvedCtx : Ctx) {rules : List Val}
    (hu : ∀ r ∈ rules, itemUntouched r = true) :
    (runRules E resolvedCtx rules).1 = rules := by
  induction rules with
  | nil => rfl
  | cons r rest ih =>
      simp only [runRules]
      rw [processRule_untouched E resolvedCtx (hu r (by simp)),
        ih (fun q hq => hu q (List.mem_cons_of_mem _ hq))]

theorem execRulesPhase_untouched (E : Engine) (kvs : List (String × Val))
    (resolvedCtx : Ctx) (preEntries : List Val) {out : ExecOut}
    (hu2 : ∀ xs, dGetD kvs "rules" Val.none = Val.list xs →
      ∀ r ∈ xs, itemUntouched r = true)
    (h : execRulesPhase E kvs resolvedCtx preEntries = .ok out) :
    out.ruleSetAfter = Val.dict kvs := by
  rw [execRulesPhase] at h
  cases hit : pyIter (dGetD kvs "rules" Val.none) with
  | error e => rw [hit] at h; simp [bind, Except.bind] at h
  | ok rules =>
      rw [hit] at h
      simp only [bind, Except.bind] at h
      have hrr := runRules_untouched E resolvedCtx
        (iterItems_untouched hu2 hit)
      rw [hrr] at h
      cases hgr : dGet? kvs "rules" with
      | none =>
          rw [hgr] at h
          simp only [pure, Except.pure, Except.ok.injEq] at h
          rw [← h]
      | some v =>
          rw [hgr] at h
          cases v with
          | list l =>
              have hdl : dGetD kvs "rules" Val.none = Val.list l := by
                simp [dGetD, hgr]
              have hrl : rules = l := by
                rw [hdl, pyIter] at hit
                injection hit with h2
                exact h2.symm
              rw [hrl, dSet_self hgr] at h
              simp only [pure, Except.pure, Except.ok.injEq] at h
              rw [← h]
          | none =>
              simp only [pure, Except.pure, Except.ok.injEq] at h
              rw [← h]
          | bool b =>
              simp only [pure, Except.pure, Except.ok.injEq] at h
              rw [← h]
          | int n =>
              simp only [pure, Except.pure, Except.ok.injEq] at h
              rw [← h]
          | pyFloat s =>
              simp only [pure, Except.pure, Except.ok.injEq] at h
              rw [← h]
          | str s =>
              simp only [pure, Except.pure, Except.ok.injEq] at h
              rw [← h]
          | dict dkvs =>
              simp only [pure, Except.pure, Except.ok.injEq] at h
              rw [← h]

theorem execMainPhase_untouched (E : Engine) (kvs : List (String × Val))
    (context : Ctx) {out : ExecOut}
    (hu1 : reqsUntouched (dGetD kvs "requires" (.list [])) = true)
    (hu2 : ∀ xs, dGetD kvs "rules" Val.none = Val.list xs →
      ∀ r ∈ xs, itemUntouched r = true)
    (h : execMainPhase E kvs context = .ok out) :
    out.ruleSetAfter = Val.dict kvs := by
  rw [execMainPhase] at h
  cases htr : (dGetD kvs "requires" (.list [])).truthy with
  | false =>
      simp only [htr, Bool.false_eq_true, if_false, bind, Except.bind,
        pure, Except.pure] at h
      exact execRulesPhase_untouched E kvs context [] hu2 h
  | true =>
      simp only [htr, if_true] at h
      cases hs : sortedRequires (dGetD kvs "requires" (.list [])) with
      | error e => rw [hs] at h; simp [bind, Except.bind] at h
      | ok sorted =>
          rw [hs] at h
          simp only [bind, Except.bind, pure, Except.pure] at h
          have hto := resolveTopReqs_untouched E context context
            (sortedRequires_untouched hu1 hs)
          rw [hto] at h
          rw [writeBackReqs_id' hs] at h
          cases hget : dGet? kvs "requires" with
          | none =>
              rw [dGetD, hget] at htr
              simp [Val.truthy] at htr
          | some v =>
              have hv : dGetD kvs "requires" (.list []) = v := by
                simp [dGetD, hget]
              rw [hv, dSet_self hget] at h
              exact execRulesPhase_untouched E kvs _ _ hu2 h

theorem ruleSetUntouchable_parts {kvs : List (String × Val)}
    (hu : ruleSetUntouchable (.dict kvs) = true) :
    reqsUntouched (dGetD kvs "requires" (.list [])) = true ∧
    (∀ xs, dGetD kvs "rules" Val.none = Val.list xs →
      ∀ r ∈ xs, itemUntouched r = true) ∧
    (∀ xs, dGetD kvs "applies_when" (.list []) = Val.list xs →
      ∀ c ∈ xs, itemUntouched c = true) := by
  simp only [ruleSetUntouchable, Bool.and_eq_true] at hu
  obtain ⟨⟨hu1, hu2⟩, hu3⟩ := hu
  refine ⟨hu1, ?_, ?_⟩
  · intro xs hxs r hr
    have hda : dGetD kvs "rules" (.list []) = Val.list xs := by
      cases hg : dGet? kvs "rules" with
      | none =>
          rw [dGetD, hg] at hxs
          exact absurd hxs (by simp)
      | some v =>
          rw [dGetD, hg] at hxs ⊢
          simpa using hxs
    rw [hda] at hu2
    have hone := List.all_eq_true.mp hu2 r hr
    cases r <;> simpa [itemUntouched] using hone
  · intro xs hxs c hc
    have hda : dGetD kvs "applies_when" (.list []) = Val.list xs := hxs
    rw [hda] at hu3
    have hone := List.all_eq_true.mp hu3 c hc
    cases c <;> simpa [itemUntouched] using hone


/-- C9 (amended): the rule set is not immutable in general — evaluation
writes `type = "context"` into requirement dicts that lack it (see the
counterexample) — but when every requirement descriptor at the rule-set
level, in every rule, and in every `applies_when` condition either
already carries a `type` key or has no `name`, `execute_rule_set`
returns the rule-set argument to the caller unchanged. -/
theorem C9_amended (E : Engine) (ruleSet : Val) (context : Ctx) (out : ExecOut)
    (hu : ruleSetUntouchable ruleSet = true)
    (hrun : executeRuleSet E ruleSet context = .ok out) :
    out.ruleSetAfter = ruleSet := by
  rw [executeRuleSet] at hrun
  cases ht : ruleSet.truthy with
  | false =>
      simp [ht, pure, Except.pure, bind, Except.bind] at hrun
      rw [← hrun]
  | true =>
      simp only [ht, Bool.not_true, Bool.false_eq_true, if_false,
        bind, Except.bind, pure, Except.pure] at hrun
      cases hin : pyIn (Val.str "rules") ruleSet with
      | error e => rw [hin] at hrun; simp at hrun
      | ok hasR =>
          rw [hin] at hrun
          cases hasR with
          | false =>
              simp [pure, Except.pure] at hrun
              rw [← hrun]
          | true =>
              simp only [Bool.not_true, Bool.false_eq_true, if_false] at hrun
              cases ruleSet with
              | none => simp [pyGet] at hrun
              | bool b => simp [pyGet] at hrun
              | int n => simp [pyGet] at hrun
              | pyFloat s => simp [pyGet] at hrun
              | str s => simp [pyGet] at hrun
              | list xs => simp [pyGet] at hrun
              | dict kvs =>
                  obtain ⟨hu1, hu2, hu3⟩ := ruleSetUntouchable_parts hu
                  simp only [pyGet, asDict] at hrun
                  cases hga : dGet? kvs "applies_when" with
                  | none =>
                      have hda : dGetD kvs "applies_when" (Val.list []) = Val.list [] := by
                        simp [dGetD, hga]
                      rw [hda, hga] at hrun
                      simp only [Val.truthy, Bool.false_eq_true, if_false] at hrun
                      exact execMainPhase_untouched E kvs context hu1 hu2 hrun
                  | some v =>
                      have hda : dGetD kvs "applies_when" (Val.list []) = v := by
                        simp [dGetD, hga]
                      rw [hda, hga] at hrun
                      cases v with
                      | none =>
                          simp only [Val.truthy, Bool.false_eq_true, if_false] at hrun
                          exact execMainPhase_untouched E kvs context hu1 hu2 hrun
                      | bool b =>
                          by_cases haw : (Val.bool b).truthy = true
                          · simp only [haw, if_true] at hrun
                            simp [pyIter] at hrun
                          · simp only [haw, if_false] at hrun
                            exact execMainPhase_untouched E kvs context hu1 hu2 hrun
                      | int n =>
                          by_cases haw : (Val.int n).truthy = true
                          · simp only [haw, if_true] at hrun
                            simp [pyIter] at hrun
                          · simp only [haw, if_false] at hrun
                            exact execMainPhase_untouched E kvs context hu1 hu2 hrun
                      | pyFloat fs =>
                          by_cases haw : (Val.pyFloat fs).truthy = true
                          · simp only [haw, if_true] at hrun
                            simp [pyIter] at hrun
                          · simp only [haw, if_false] at hrun
                            exact execMainPhase_untouched E kvs context hu1 hu2 hrun
                      | str s =>
                          by_cases haw : (Val.str s).truthy = true
                          · simp only [haw, if_true] at hrun
                            cases hit : pyIter (Val.str s) with
                            | error e => rw [hit] at hrun; simp at hrun
                            | ok conds =>
                                rw [hit] at hrun
                                dsimp only at hrun
                                cases hrc : runConditions E kvs context conds with
                                | error e => rw [hrc] at hrun; simp at hrun
                                | ok co =>
                                    obtain ⟨conds2, o⟩ := co
                                    rw [hrc] at hrun
                                    dsimp only at hrun
                                    cases o with
                                    | some res =>
                                        simp only [Except.ok.injEq] at hrun
                                        rw [← hrun]
                                    | none =>
                                        exact execMainPhase_untouched E kvs context hu1 hu2 hrun
                          · simp only [haw, if_false] at hrun
                            exact execMainPhase_untouched E kvs context hu1 hu2 hrun
                      | dict dkvs =>
                          by_cases haw : (Val.dict dkvs).truthy = true
                          · simp only [haw, if_true] at hrun
                            cases hit : pyIter (Val.dict dkvs) with
                            | error e => rw [hit] at hrun; simp at hrun
                            | ok conds =>
                                rw [hit] at hrun
                                dsimp only at hrun
                                cases hrc : runConditions E kvs context conds with
                                | error e => rw [hrc] at hrun; simp at hrun
                                | ok co =>
                                    obtain ⟨conds2, o⟩ := co
                                    rw [hrc] at hrun
                                    dsimp only at hrun
                                    cases o with
                                    | some res =>
                                        simp only [Except.ok.injEq] at hrun
                                        rw [← hrun]
                                    | none =>
                                        exact execMainPhase_untouched E kvs context hu1 hu2 hrun
                          · simp only [haw, if_false] at hrun
                            exact execMainPhase_untouched E kvs context hu1 hu2 hrun
                      | list cs =>
                          by_cases haw : (Val.list cs).truthy = true
                          · simp only [haw, if_true] at hrun
                            cases hit : pyIter (Val.list cs) with
                            | error e => rw [hit] at hrun; simp at hrun
                            | ok conds =>
                                rw [hit] at hrun
                                dsimp only at hrun
                                cases hrc : runConditions E kvs context conds with
                                | error e => rw [hrc] at hrun; simp at hrun
                                | ok co =>
                                    obtain ⟨conds2, o⟩ := co
                                    rw [hrc] at hrun
                                    dsimp only at hrun
                                    have hcs : conds = cs := by
                                      rw [pyIter] at hit
                                      injection hit with h2
                                      exact h2.symm
                                    have hc2 : conds2 = conds := by
                                      subst hcs
                                      exact runConditions_untouched E kvs context
                                        (hu3 _ hda) hrc
                                    subst hc2
                                    rw [hcs, dSet_self hga] at hrun
                                    cases o with
                                    | some res =>
                                        simp only [Except.ok.injEq] at hrun
                                        rw [← hrun]
                                    | none =>
                                        exact execMainPhase_untouched E kvs context hu1 hu2 hrun
                          · simp only [haw, if_false] at hrun
                            exact execMainPhase_untouched E kvs context hu1 hu2 hrun


/-- C9 witness: a concrete untouchable rule set (its only requirement
already typed) passes through execution unchanged. -/
theorem C9_amended_witness :
    ruleSetUntouchable (.dict [("rules", .list []),
      ("requires", .list [.dict [("name", .str "x"), ("type", .str "context"),
        ("field", .str "x")]])]) = true ∧
    (executeRuleSet E0 (.dict [("rules", .list []),
      ("requires", .list [.dict [("name", .str "x"), ("type", .str "context"),
        ("field", .str "x")]])]) []).map (fun o => o.ruleSetAfter) =
      .ok (.dict [("rules", .list []),
        ("requires", .list [.dict [("name", .str "x"), ("type", .str "context"),
          ("field", .str "x")]])]) := by
  refine ⟨by decide, ?_⟩
  cases hrun : executeRuleSet E0 (.dict [("rules", .list []),
      ("requires", .list [.dict [("name", .str "x"), ("type", .str "context"),
        ("field", .str "x")]])]) [] with
  | error e =>
      exact absurd hrun (by simp +decide [executeRuleSet, execMainPhase,
        execRulesPhase, finalResult, asDict, pyIn, dHas, dGet?, dGetD, dSet,
        pyGet, Val.truthy, pyIter, pySub, sortedRequires, sortByPriority,
        idxTag, prioritize, sourcePriority, resolveTopReqs, reqQualifies,
        addTypeDefault, resolveData, resolveFromContext, bindName,
        writeBackReqs, List.find?, pyEq, runRules, entryPassTruthy,
        pure, Except.pure, bind, Except.bind])
  | ok out =>
      simp only [Except.map]
      rw [C9_amended E0 _ [] out (by decide) hrun]



mutual

/-- Expressions built only from the structured forms of
`evaluate_expression`: no `custom` component at top level or below,
only field/operator/value triples, `and`/`or` over sequences of
structured operands, `not` over a structured operand, and the
falsy/unrecognised shapes that default. -/
def structuredExpr : Val → Bool
  | .dict kvs =>
      !(dHas kvs "custom") &&
      (match dGet? kvs "field", dGet? kvs "operator", dGet? kvs "value" with
       | some _, some _, some _ => true
       | _, _, _ =>
         match hA : dGet? kvs "and" with
         | some (.list xs) => structuredExprs xs
         | some _ => false
         | Option.none =>
           match hO : dGet? kvs "or" with
           | some (.list xs) => structuredExprs xs
           | some _ => false
           | Option.none =>
             match hN : dGet? kvs "not" with
             | some nv => structuredExpr nv
             | Option.none => true)
  | .str _ => false
  | _ => true
termination_by e => sizeOf e
decreasing_by
  all_goals simp_wf
  all_goals first
    | (have hs2 := dGet?_sizeOf hA; simp at hs2 ⊢ <;> omega)
    | (have hs2 := dGet?_sizeOf hO; simp at hs2 ⊢ <;> omega)
    | (have hs2 := dGet?_sizeOf hN; simp at hs2 ⊢ <;> omega)

def structuredExprs : List Val → Bool
  | [] => true
  | x :: rest => structuredExpr x && structuredExprs rest
termination_by xs => sizeOf xs
decreasing_by all_goals simp_wf <;> omega

end

/-- The returned value is a mapping carrying a `result` key. -/
def hasResultKey (v : Val) : Bool :=
  match v with
  | .dict kvs => dHas kvs "result"
  | _ => false

theorem exprCatch_hasResult (e : PyExn) (expr : Val) :
    hasResultKey (exprCatch e expr) = true := by
  rw [exprCatch]
  split <;> simp [hasResultKey, dHas, dGet?]

theorem hasResultKey_dict {v : Val} (h : hasResultKey v = true) :
    ∃ kvs, v = .dict kvs ∧ ∃ rv, dGet? kvs "result" = some rv := by
  cases v with
  | dict kvs =>
      refine ⟨kvs, rfl, ?_⟩
      simp only [hasResultKey, dHas] at h
      cases hg : dGet? kvs "result" with
      | none => rw [hg] at h; simp at h
      | some rv => exact ⟨rv, rfl⟩
  | none => simp [hasResultKey] at h
  | bool b => simp [hasResultKey] at h
  | int n => simp [hasResultKey] at h
  | pyFloat s => simp [hasResultKey] at h
  | str s => simp [hasResultKey] at h
  | list xs => simp [hasResultKey] at h

theorem structuredExprs_mem {xs : List Val} (h : structuredExprs xs = true) :
    ∀ x ∈ xs, structuredExpr x = true := by
  induction xs with
  | nil => simp
  | cons x rest ih =>
      simp only [structuredExprs, Bool.and_eq_true] at h
      intro y hy
      rcases List.mem_cons.mp hy with hy | hy
      · subst hy; exact h.1
      · exact ih h.2 y hy

theorem firstErrorResult_dicts {results : List Val}
    (h : ∀ r ∈ results, hasResultKey r = true) :
    ∃ o, firstErrorResult results = .ok o ∧ ∀ r, o = some r → r ∈ results := by
  induction results with
  | nil => exact ⟨Option.none, rfl, by simp⟩
  | cons r rest ih =>
      obtain ⟨kvs, hk, -⟩ := hasResultKey_dict (h r (by simp))
      subst hk
      rw [firstErrorResult]
      simp only [pyIn, bind, Except.bind]
      by_cases he : dHas kvs "error" = true
      · refine ⟨some (.dict kvs), ?_, ?_⟩
        · simp [he, pure, Except.pure]
        · intro r2 hr2
          injection hr2 with h2
          subst h2
          simp
      · obtain ⟨o, ho, hmem⟩ := ih (fun q hq => h q (List.mem_cons_of_mem _ hq))
        refine ⟨o, ?_, fun r2 hro => List.mem_cons_of_mem _ (hmem r2 hro)⟩
        simp only [Bool.not_eq_true] at he
        simp [he, ho]

theorem allTruthyResults_ok {results : List Val}
    (h : ∀ r ∈ results, hasResultKey r = true) :
    ∃ b, allTruthyResults results = .ok b := by
  induction results with
  | nil => exact ⟨true, rfl⟩
  | cons r rest ih =>
      obtain ⟨kvs, hk, rv, hrv⟩ := hasResultKey_dict (h r (by simp))
      subst hk
      rw [allTruthyResults]
      simp only [pySub, hrv, bind, Except.bind]
      by_cases ht : rv.truthy = true
      · obtain ⟨b, hb⟩ := ih (fun q hq => h q (List.mem_cons_of_mem _ hq))
        exact ⟨b, by simp [ht, hb]⟩
      · simp only [Bool.not_eq_true] at ht
        exact ⟨false, by simp [ht, pure, Except.pure]⟩

theorem anyTruthyResults_ok {results : List Val}
    (h : ∀ r ∈ results, hasResultKey r = true) :
    ∃ b, anyTruthyResults results = .ok b := by
  induction results with
  | nil => exact ⟨false, rfl⟩
  | cons r rest ih =>
      obtain ⟨kvs, hk, rv, hrv⟩ := hasResultKey_dict (h r (by simp))
      subst hk
      rw [anyTruthyResults]
      simp only [pySub, hrv, bind, Except.bind]
      by_cases ht : rv.truthy = true
      · exact ⟨true, by simp [ht, pure, Except.pure]⟩
      · obtain ⟨b, hb⟩ := ih (fun q hq => h q (List.mem_cons_of_mem _ hq))
        simp only [Bool.not_eq_true] at ht
        exact ⟨b, by simp [ht, hb]⟩





theorem structured_hasResult (E : Engine) (context : Ctx) :
    ∀ n, ∀ expr : Val, sizeOf expr ≤ n → structuredExpr expr = true →
      hasResultKey (evaluateExpression E expr context) = true := by
  intro n
  induction n with
  | zero =>
      intro expr hsz hstr
      cases expr <;> simp at hsz <;> omega
  | succ n ih =>
      intro expr hsz hstr
      rw [evaluateExpression]
      cases htr : expr.truthy with
      | false =>
          simp only [htr, Bool.not_false, if_true]
          simp [hasResultKey, dHas, dGet?]
      | true =>
          simp only [htr, Bool.not_true, Bool.false_eq_true, if_false]
          cases hev : evalTry E expr context with
          | error e => exact exprCatch_hasResult e expr
          | ok v =>
              show hasResultKey v = true
              cases expr with
              | str s => simp [structuredExpr] at hstr
              | none =>
                  simp only [evalTry, pure, Except.pure, Except.ok.injEq] at hev
                  subst hev
                  simp [hasResultKey, dHas, dGet?]
              | bool b =>
                  simp only [evalTry, pure, Except.pure, Except.ok.injEq] at hev
                  subst hev
                  simp [hasResultKey, dHas, dGet?]
              | int m =>
                  simp only [evalTry, pure, Except.pure, Except.ok.injEq] at hev
                  subst hev
                  simp [hasResultKey, dHas, dGet?]
              | pyFloat fs =>
                  simp only [evalTry, pure, Except.pure, Except.ok.injEq] at hev
                  subst hev
                  simp [hasResultKey, dHas, dGet?]
              | list ys =>
                  simp only [evalTry, pure, Except.pure, Except.ok.injEq] at hev
                  subst hev
                  simp [hasResultKey, dHas, dGet?]
              | dict kvs =>
                  simp only [structuredExpr, Bool.and_eq_true] at hstr
                  obtain ⟨hnc, hrest⟩ := hstr
                  have hcn : dGet? kvs "custom" = Option.none := by
                    cases hg : dGet? kvs "custom" with
                    | none => rfl
                    | some c => simp [dHas, hg] at hnc
                  simp only [evalTry, hcn] at hev
                  cases hF : dGet? kvs "field" <;>
                    cases hO2 : dGet? kvs "operator" <;>
                    cases hV : dGet? kvs "value" <;>
                    simp only [hF, hO2, hV] at hev hrest <;>
                    first
                    | (rename_i f op w
                       cases hgf : getFieldValue f context with
                       | error e2 => rw [hgf] at hev; simp [bind, Except.bind] at hev
                       | ok actual =>
                           rw [hgf] at hev
                           simp only [bind, Except.bind] at hev
                           cases hop : evaluateOperation E op actual w with
                           | error e2 => rw [hop] at hev; simp at hev
                           | ok opr =>
                               rw [hop] at hev
                               simp only [bind, Except.bind, pure, Except.pure,
                                 Except.ok.injEq] at hev
                               subst hev
                               simp [hasResultKey, dHas, dGet?])
                    | (split at hrest
                       · rename_i xs heqA
                         split at hev
                         · rename_i av heqA2
                           rw [heqA] at heqA2
                           injection heqA2 with heqv
                           subst heqv
                           have hsx : structuredExprs xs = true := hrest
                           simp only [evalSubExprs, bind, Except.bind] at hev
                           have hres : ∀ r ∈ xs.attach.map
                               (fun e => evaluateExpression E e.val context),
                               hasResultKey r = true := by
                             intro r hr
                             simp only [List.mem_map, List.mem_attach,
                               true_and] at hr
                             obtain ⟨e, hre⟩ := hr
                             subst hre
                             refine ih e.val ?_
                               (structuredExprs_mem hsx e.val e.property)
                             have h1 := List.sizeOf_lt_of_mem e.property
                             have h2 := dGet?_sizeOf heqA
                             simp at h2 hsz ⊢
                             omega
                           obtain ⟨o, ho, hmem⟩ := firstErrorResult_dicts hres
                           rw [ho] at hev
                           simp only [bind, Except.bind] at hev
                           cases o with
                           | some r =>
                               simp only [pure, Except.pure,
                                 Except.ok.injEq] at hev
                               subst hev
                               exact hres r (hmem r rfl)
                           | none =>
                               obtain ⟨b, hb⟩ := allTruthyResults_ok hres
                               rw [hb] at hev
                               simp only [bind, Except.bind, pure, Except.pure,
                                 Except.ok.injEq] at hev
                               subst hev
                               simp [hasResultKey, dHas, dGet?]
                         · rename_i heqA2
                           rw [heqA2] at heqA
                           exact absurd heqA (by simp)
                       · exact absurd hrest (by simp)
                       · rename_i heqA
                         split at hev
                         · rename_i av heqA2
                           rw [heqA] at heqA2
                           exact absurd heqA2 (by simp)
                         · split at hrest
                           · rename_i xs heqO
                             split at hev
                             · rename_i ov heqO2
                               rw [heqO] at heqO2
                               injection heqO2 with heqv
                               subst heqv
                               have hsx : structuredExprs xs = true := hrest
                               simp only [evalSubExprs, bind, Except.bind] at hev
                               have hres : ∀ r ∈ xs.attach.map
                                   (fun e => evaluateExpression E e.val context),
                                   hasResultKey r = true := by
                                 intro r hr
                                 simp only [List.mem_map, List.mem_attach,
                                   true_and] at hr
                                 obtain ⟨e, hre⟩ := hr
                                 subst hre
                                 refine ih e.val ?_
                                   (structuredExprs_mem hsx e.val e.property)
                                 have h1 := List.sizeOf_lt_of_mem e.property
                                 have h2 := dGet?_sizeOf heqO
                                 simp at h2 hsz ⊢
                                 omega
                               obtain ⟨o, ho, hmem⟩ := firstErrorResult_dicts hres
                               rw [ho] at hev
                               simp only [bind, Except.bind] at hev
                               cases o with
                               | some r =>
                                   simp only [pure, Except.pure,
                                     Except.ok.injEq] at hev
                                   subst hev
                                   exact hres r (hmem r rfl)
                               | none =>
                                   obtain ⟨b, hb⟩ := anyTruthyResults_ok hres
                                   rw [hb] at hev
                                   simp only [bind, Except.bind, pure, Except.pure,
                                     Except.ok.injEq] at hev
                                   subst hev
                                   simp [hasResultKey, dHas, dGet?]
                             · rename_i heqO2
                               rw [heqO2] at heqO
                               exact absurd heqO (by simp)
                           · exact absurd hrest (by simp)
                           · rename_i heqO
                             split at hev
                             · rename_i ov heqO2
                               rw [heqO] at heqO2
                               exact absurd heqO2 (by simp)
                             · split at hrest
                               · rename_i nv heqN
                                 split at hev
                                 · rename_i nv2 heqN2
                                   rw [heqN] at heqN2
                                   injection heqN2 with heqv
                                   subst heqv
                                   have hnv : hasResultKey
                                       (evaluateExpression E nv context) = true := by
                                     refine ih nv ?_ hrest
                                     have h2 := dGet?_sizeOf heqN
                                     simp at hsz ⊢
                                     omega
                                   obtain ⟨rkvs, hrk, rv, hrv⟩ := hasResultKey_dict hnv
                                   rw [hrk] at hev
                                   simp only [pyIn, bind, Except.bind] at hev
                                   by_cases he2 : dHas rkvs "error" = true
                                   · simp only [he2, if_true, pure, Except.pure,
                                       Except.ok.injEq] at hev
                                     subst hev
                                     exact hrk ▸ hnv
                                   · simp only [Bool.not_eq_true] at he2
                                     simp only [he2, Bool.false_eq_true, if_false,
                                       pySub, hrv, bind, Except.bind, pure,
                                       Except.pure, Except.ok.injEq] at hev
                                     subst hev
                                     simp [hasResultKey, dHas, dGet?]
                                 · rename_i heqN2
                                   rw [heqN2] at heqN
                                   exact absurd heqN (by simp)
                               · rename_i heqN
                                 split at hev
                                 · rename_i nv2 heqN2
                                   rw [heqN] at heqN2
                                   exact absurd heqN2 (by simp)
                                 · simp only [pure, Except.pure,
                                     Except.ok.injEq] at hev
                                   subst hev
                                   simp [hasResultKey, dHas, dGet?])


/-- The sandboxed eval returns a plain boolean for the comparison
`1 < 2` (oracle for the `eval` call inside
`_evaluate_custom_expression`). -/
def evalRawEngine : Engine :=
  { E0 with
    pyEvalBody := fun _ _ => .ok (.bool true) }

/-- C2 counterexample: a mapping expression with a `custom` key returns
the raw value of `_evaluate_custom_expression` — here the bare boolean
`True` — not a result object; the contract that `evaluate_expression`
always yields a mapping with a `result` key fails on this recognized
shape. -/
theorem C2_counterexample :
    evaluateExpression evalRawEngine (.dict [("custom", .str "1 < 2")]) [] =
      .bool true ∧ hasResultKey (.bool true) = false := by
  constructor
  · rw [evaluateExpression]
    simp +decide [evalTry, evaluateCustomExpression, evalRawEngine, dGet?,
      Val.truthy, pure, Except.pure, bind, Except.bind]
  · rfl

/-- C2 (amended): on custom-free structured expressions — field/operator/
value triples, `and`/`or` over sequences of structured operands, `not`
over a structured operand, and the falsy or unrecognised shapes — the
evaluator is total and always returns a mapping that carries a `result`
key; every internal failure is caught and converted into a
`result = false` error mapping. With any `custom` component the raw
evaluation value leaks through instead. -/
theorem C2_structured_total (E : Engine) (expr : Val) (context : Ctx)
    (h : structuredExpr expr = true) :
    hasResultKey (evaluateExpression E expr context) = true :=
  structured_hasResult E context (sizeOf expr) expr le_rfl h

/-- C2 witness: a concrete `and` composition over a structured operand
evaluates to a mapping with a `result` key. -/
theorem C2_structured_total_witness :
    hasResultKey (evaluateExpression E0
      (.dict [("and", .list [.bool true])]) []) = true :=
  C2_structured_total E0 (.dict [("and", .list [.bool true])]) []
    (by simp +decide [structuredExpr, structuredExprs, dHas, dGet?])


theorem runConditions_reach (E : Engine) (rsKvs : List (String × Val))
    (context : Ctx) : ∀ (pre : List Val) {pre2 : List Val},
    runConditions E rsKvs context pre = .ok (pre2, Option.none) →
    ∀ {c c2 : Val} {res : Val},
    processCondition E rsKvs context c = .ok (c2, some res) →
    ∀ (post : List Val),
    runConditions E rsKvs context (pre ++ c :: post) =
      .ok (pre2 ++ c2 :: post, some res) := by
  intro pre
  induction pre with
  | nil =>
      intro pre2 hpre c c2 res hc post
      rw [runConditions] at hpre
      simp only [Except.ok.injEq, Prod.mk.injEq] at hpre
      rw [← hpre.1]
      simp only [List.nil_append]
      rw [runConditions, hc]
      simp [bind, Except.bind, pure, Except.pure]
  | cons p rest ih =>
      intro pre2 hpre c c2 res hc post
      rw [runConditions] at hpre
      cases hp : processCondition E rsKvs context p with
      | error e => rw [hp] at hpre; simp [bind, Except.bind] at hpre
      | ok pr =>
          obtain ⟨p2, o⟩ := pr
          rw [hp] at hpre
          simp only [bind, Except.bind] at hpre
          cases o with
          | some r0 =>
              simp only [pure, Except.pure, Except.ok.injEq, Prod.mk.injEq] at hpre
              exact absurd hpre.2 (by simp)
          | none =>
              cases hr : runConditions E rsKvs context rest with
              | error e => rw [hr] at hpre; simp [bind, Except.bind] at hpre
              | ok pr2 =>
                  obtain ⟨rest2, o2⟩ := pr2
                  rw [hr] at hpre
                  simp only [bind, Except.bind, pure, Except.pure,
                    Except.ok.injEq, Prod.mk.injEq] at hpre
                  obtain ⟨hpre1, hpre2⟩ := hpre
                  subst hpre2
                  rw [← hpre1]
                  simp only [List.cons_append]
                  rw [runConditions, hp]
                  simp only [bind, Except.bind]
                  rw [ih hr hc post]
                  simp [pure, Except.pure]

theorem processCondition_fails (E : Engine) (rsKvs : List (String × Val))
    (context : Ctx) (ckvs : List (String × Val)) {sorted : List (Nat × Val)}
    (hreq : (dGetD ckvs "requires" (.list [])).truthy = true)
    (hexp : (dGetD ckvs "expression" Val.none).truthy = true)
    (hsort : sortedRequires (dGetD ckvs "requires" (.list [])) = .ok sorted)
    (hfail : (resolveCondReqs E sorted context).raised.isSome = true ∨
      ((resolveCondReqs E sorted context).raised = Option.none ∧
        ∃ rv, pyGet (evaluateExpression E (dGetD ckvs "expression" Val.none)
            (resolveCondReqs E sorted context).ctx) "result" (.bool false) =
              .ok rv ∧ rv.truthy = false)) :
    processCondition E rsKvs context (.dict ckvs) =
      .ok (Val.dict (dSet ckvs "requires"
          (writeBackReqs (dGetD ckvs "requires" (.list []))
            (resolveCondReqs E sorted context).reqs)),
        some (syntheticResult rsKvs (dGetD ckvs "id" (.str "applies_condition"))
          (if (dGetD ckvs "message" Val.none).truthy
           then dGetD ckvs "message" Val.none
           else .str "规则集前置条件不满足"))) := by
  rw [processCondition]
  split
  · rw [hsort]
    simp only [bind, Except.bind]
    rcases hfail with hf | ⟨hn, rv, hg, hrv⟩
    · cases hr : (resolveCondReqs E sorted context).raised with
      | none => rw [hr] at hf; simp at hf
      | some e => rfl
    · rw [hn, hg]
      simp only [hrv, Bool.false_eq_true, if_false]
      rfl
  · rename_i hbr
    exact absurd (by simp [hreq, hexp]) hbr


/-- C4: for a rule set with a `rules` key and an `applies_when` condition
carrying truthy `requires` and `expression`, once the conditions before
it pass, a requirement resolution that raises or a condition expression
whose `result` is falsy makes `execute_rule_set` return immediately:
the result is the synthetic short-circuit mapping with `pass = false`,
`applies = false`, and exactly one violation entry carrying the
condition's message (also the only entry of `results` — no rule is
evaluated). -/
theorem C4_condition_shortcircuit (E : Engine) (kvs : List (String × Val))
    (context : Ctx) (pre post : List Val) (pre2 : List Val)
    (ckvs : List (String × Val)) {sorted : List (Nat × Val)}
    (hhr : dHas kvs "rules" = true)
    (hga : dGet? kvs "applies_when" = some (.list (pre ++ Val.dict ckvs :: post)))
    (hpre : runConditions E kvs context pre = .ok (pre2, Option.none))
    (hreq : (dGetD ckvs "requires" (.list [])).truthy = true)
    (hexp : (dGetD ckvs "expression" Val.none).truthy = true)
    (hsort : sortedRequires (dGetD ckvs "requires" (.list [])) = .ok sorted)
    (hfail : (resolveCondReqs E sorted context).raised.isSome = true ∨
      ((resolveCondReqs E sorted context).raised = Option.none ∧
        ∃ rv, pyGet (evaluateExpression E (dGetD ckvs "expression" Val.none)
            (resolveCondReqs E sorted context).ctx) "result" (.bool false) =
              .ok rv ∧ rv.truthy = false)) :
    executeRuleSet E (.dict kvs) context = .ok
      ⟨syntheticResult kvs (dGetD ckvs "id" (.str "applies_condition"))
          (if (dGetD ckvs "message" Val.none).truthy
           then dGetD ckvs "message" Val.none
           else .str "规则集前置条件不满足"),
        .dict (dSet kvs "applies_when" (.list (pre2 ++
          Val.dict (dSet ckvs "requires"
            (writeBackReqs (dGetD ckvs "requires" (.list []))
              (resolveCondReqs E sorted context).reqs)) :: post)))⟩ ∧
    ∀ cid cmsg, syntheticResult kvs cid cmsg = Val.dict
      [("pass", .bool false),
       ("violations", .list [Val.dict
         [("id", cid), ("pass", .bool false), ("message", cmsg)]]),
       ("results", .list [Val.dict
         [("id", cid), ("pass", .bool false), ("message", cmsg)]]),
       ("rule_set_id", dGetD kvs "id" Val.none),
       ("rule_set_name", dGetD kvs "name" Val.none),
       ("on_fail", dGetD kvs "on_fail" defaultOnFail),
       ("applies", .bool false)] := by
  have hfailc := processCondition_fails E kvs context ckvs hreq hexp hsort hfail
  have hrc := runConditions_reach E kvs context pre hpre hfailc post
  refine ⟨?_, fun cid cmsg => rfl⟩
  have htr : (Val.dict kvs).truthy = true := by
    cases kvs with
    | nil => simp [dGet?] at hga
    | cons a b => simp [Val.truthy]
  rw [executeRuleSet]
  simp only [htr, Bool.not_true, Bool.false_eq_true, if_false,
    bind, Except.bind, pure, Except.pure]
  simp only [pyIn, hhr, Bool.not_true, Bool.false_eq_true, if_false]
  simp only [pyGet, asDict]
  have hda : dGetD kvs "applies_when" (.list []) =
      .list (pre ++ Val.dict ckvs :: post) := by
    simp [dGetD, hga]
  rw [hda, hga]
  have hlt : (Val.list (pre ++ Val.dict ckvs :: post)).truthy = true := by
    cases pre <;> simp [Val.truthy]
  simp only [hlt, if_true, pyIter, bind, Except.bind]
  rw [hrc]


/-- The `applies_when` condition of the C4 scenario: requires `a` from
the context and expects `a == 1`. -/
def condC4kvs : List (String × Val) :=
  [("id", .str "c1"), ("message", .str "nope"),
   ("requires", .list [.dict [("name", .str "a"), ("type", .str "context"),
     ("field", .str "a")]]),
   ("expression", .dict [("field", .str "a"), ("operator", .str "=="),
     ("value", .int 1)])]

/-- The C4 scenario rule set: one rule, one failing condition. -/
def rsC4kvs : List (String × Val) :=
  [("rules", .list [.dict [("id", .str "r1"),
     ("expression", .dict [("field", .str "a"), ("operator", .str "=="),
       ("value", .int 2)])]]),
   ("applies_when", .list [.dict condC4kvs])]

/-- C4 witness: a condition requiring `a == 1` over a context with
`a = 2` short-circuits a one-rule rule set into the synthetic
non-applicable result. -/
theorem C4_condition_shortcircuit_witness :
    executeRuleSet E0 (.dict rsC4kvs) [("a", .int 2)] = .ok
      ⟨syntheticResult rsC4kvs (dGetD condC4kvs "id" (.str "applies_condition"))
          (if (dGetD condC4kvs "message" Val.none).truthy
           then dGetD condC4kvs "message" Val.none
           else .str "规则集前置条件不满足"),
        .dict (dSet rsC4kvs "applies_when" (.list ([] ++
          Val.dict (dSet condC4kvs "requires"
            (writeBackReqs (dGetD condC4kvs "requires" (.list []))
              (resolveCondReqs E0
                [(0, .dict [("name", .str "a"), ("type", .str "context"),
                  ("field", .str "a")])]
                [("a", .int 2)]).reqs)) :: [])))⟩ :=
  by
  have hsort : sortedRequires (dGetD condC4kvs "requires" (.list [])) =
      Except.ok [(0, Val.dict [("name", Val.str "a"),
        ("type", Val.str "context"), ("field", Val.str "a")])] := rfl
  refine (C4_condition_shortcircuit E0 rsC4kvs [("a", .int 2)] [] [] []
    condC4kvs rfl rfl rfl rfl rfl hsort ?_).1
  refine Or.inr ⟨?_, .bool false, ?_, rfl⟩
  · simp +decide [resolveCondReqs, reqQualifies, addTypeDefault, dHas, dGet?,
      dGetD, dSet, resolveData, resolveFromContext, descendDict, pySplitDot,
      bindName, pyEq, descendFull, localCoerce, getNestedValue, splitCharsDot,
      pure, Except.pure, bind, Except.bind]
  simp +decide [evaluateExpression, evalTry, dGet?, dGetD, Val.truthy,
    getFieldValue, descendDict, pySplitDot, evaluateOperation,
    operatorNames, applyBinaryOp, pyEq, resolveCondReqs, reqQualifies,
    addTypeDefault, dHas, dSet, resolveData, resolveFromContext, bindName,
    pyGet, pure, Except.pure, bind, Except.bind]


theorem processCondition_some (E : Engine) (rsKvs : List (String × Val))
    (context : Ctx) {c c2 res : Val}
    (h : processCondition E rsKvs context c = .ok (c2, some res)) :
    ∃ cid cmsg, res = syntheticResult rsKvs cid cmsg := by
  cases c with
  | dict ckvs =>
      simp only [processCondition] at h
      split at h
      · cases hs : sortedRequires (dGetD ckvs "requires" (.list [])) with
        | error e => rw [hs] at h; simp [bind, Except.bind] at h
        | ok tl =>
            rw [hs] at h
            simp only [bind, Except.bind] at h
            split at h
            · simp only [pure, Except.pure, Except.ok.injEq, Prod.mk.injEq,
                Option.some.injEq] at h
              exact ⟨_, _, h.2.symm⟩
            · split at h
              · simp only [pure, Except.pure, Except.ok.injEq, Prod.mk.injEq,
                  Option.some.injEq] at h
                exact ⟨_, _, h.2.symm⟩
              · split at h
                · simp only [pure, Except.pure, Except.ok.injEq,
                    Prod.mk.injEq] at h
                  exact absurd h.2 (by simp)
                · simp only [pure, Except.pure, Except.ok.injEq, Prod.mk.injEq,
                    Option.some.injEq] at h
                  exact ⟨_, _, h.2.symm⟩
      · split at h
        · cases hra : resolveData E
              (.dict [("name", .str "field_value"), ("source", .str "context"),
                      ("field", dGetD ckvs "field" Val.none)]) context with
          | error e => rw [hra] at h; simp [bind, Except.bind] at h
          | ok actual =>
              rw [hra] at h
              simp only [bind, Except.bind] at h
              cases hop : evaluateOperation E (dGetD ckvs "operator" Val.none)
                  actual (dGetD ckvs "value" Val.none) with
              | error e => rw [hop] at h; simp [bind, Except.bind] at h
              | ok opr =>
                  rw [hop] at h
                  simp only [bind, Except.bind] at h
                  split at h
                  · simp only [pure, Except.pure, Except.ok.injEq, Prod.mk.injEq,
                      Option.some.injEq] at h
                    exact ⟨_, _, h.2.symm⟩
                  · simp only [pure, Except.pure, Except.ok.injEq,
                      Prod.mk.injEq] at h
                    exact absurd h.2 (by simp)
        · simp only [pure, Except.pure, Except.ok.injEq, Prod.mk.injEq] at h
          exact absurd h.2 (by simp)
  | none => simp [processCondition, pure, Except.pure] at h
  | bool b => simp [processCondition, pure, Except.pure] at h
  | int n => simp [processCondition, pure, Except.pure] at h
  | pyFloat fs => simp [processCondition, pure, Except.pure] at h
  | str s2 => simp [processCondition, pure, Except.pure] at h
  | list xs => simp [processCondition, pure, Except.pure] at h

theorem runConditions_some (E : Engine) (rsKvs : List (String × Val))
    (context : Ctx) : ∀ {conds cs : List Val} {res : Val},
    runConditions E rsKvs context conds = .ok (cs, some res) →
    ∃ cid cmsg, res = syntheticResult rsKvs cid cmsg := by
  intro conds
  induction conds with
  | nil =>
      intro cs res h
      rw [runConditions] at h
      simp at h
  | cons c rest ih =>
      intro cs res h
      rw [runConditions] at h
      cases hp : processCondition E rsKvs context c with
      | error e => rw [hp] at h; simp [bind, Except.bind] at h
      | ok pr =>
          obtain ⟨c2, o⟩ := pr
          rw [hp] at h
          simp only [bind, Except.bind] at h
          cases o with
          | some r0 =>
              simp only [pure, Except.pure, Except.ok.injEq, Prod.mk.injEq,
                Option.some.injEq] at h
              obtain ⟨cid, cmsg, hr⟩ := processCondition_some E rsKvs context hp
              exact ⟨cid, cmsg, h.2 ▸ hr⟩
          | none =>
              cases hr : runConditions E rsKvs context rest with
              | error e => rw [hr] at h; simp [bind, Except.bind] at h
              | ok pr2 =>
                  obtain ⟨rest2, o2⟩ := pr2
                  rw [hr] at h
                  simp only [bind, Except.bind, pure, Except.pure,
                    Except.ok.injEq, Prod.mk.injEq] at h
                  cases o2 with
                  | none => exact absurd h.2 (by simp)
                  | some r2 =>
                      obtain ⟨cid, cmsg, hr2⟩ := ih hr
                      simp only [Option.some.injEq] at h
                      exact ⟨cid, cmsg, h.2 ▸ hr2⟩

theorem execRulesPhase_shape (E : Engine) (rsKvs3 : List (String × Val))
    (resolvedCtx : Ctx) (preEntries : List Val) {out : ExecOut}
    (h : execRulesPhase E rsKvs3 resolvedCtx preEntries = .ok out) :
    ∃ rsKvs4 results, out.result =
      finalResult rsKvs4 results
        (results.filter (fun r => !entryPassTruthy r)) := by
  rw [execRulesPhase] at h
  cases hit : pyIter (dGetD rsKvs3 "rules" Val.none) with
  | error e => rw [hit] at h; simp [bind, Except.bind] at h
  | ok rules =>
      rw [hit] at h
      simp only [bind, Except.bind, pure, Except.pure, Except.ok.injEq] at h
      exact ⟨_, _, by rw [← h]⟩

theorem execMainPhase_shape (E : Engine) (rsKvs2 : List (String × Val))
    (context : Ctx) {out : ExecOut}
    (h : execMainPhase E rsKvs2 context = .ok out) :
    ∃ rsKvs4 results, out.result =
      finalResult rsKvs4 results
        (results.filter (fun r => !entryPassTruthy r)) := by
  rw [execMainPhase] at h
  split at h
  · cases hs : sortedRequires (dGetD rsKvs2 "requires" (.list [])) with
    | error e => rw [hs] at h; simp [bind, Except.bind] at h
    | ok sorted =>
        rw [hs] at h
        simp only [bind, Except.bind, pure, Except.pure] at h
        exact execRulesPhase_shape E _ _ _ h
  · simp only [bind, Except.bind, pure, Except.pure] at h
    exact execRulesPhase_shape E _ _ _ h


theorem executeRuleSet_shape (E : Engine) (ruleSet : Val) (context : Ctx)
    (out : ExecOut)
    (hrun : executeRuleSet E ruleSet context = .ok out) :
    out.result = invalidRuleSetResult ∨
    (∃ cid cmsg, out.result = syntheticResult (asDict ruleSet) cid cmsg) ∨
    (∃ rsKvs4 results, out.result =
      finalResult rsKvs4 results
        (results.filter (fun r => !entryPassTruthy r))) := by
  rw [executeRuleSet] at hrun
  cases ht : ruleSet.truthy with
  | false =>
      simp [ht, pure, Except.pure, bind, Except.bind] at hrun
      left
      rw [← hrun]
  | true =>
      simp only [ht, Bool.not_true, Bool.false_eq_true, if_false,
        bind, Except.bind, pure, Except.pure] at hrun
      cases hin : pyIn (Val.str "rules") ruleSet with
      | error e => rw [hin] at hrun; simp at hrun
      | ok hasR =>
          rw [hin] at hrun
          cases hasR with
          | false =>
              simp [pure, Except.pure] at hrun
              left
              rw [← hrun]
          | true =>
              simp only [Bool.not_true, Bool.false_eq_true, if_false] at hrun
              cases ruleSet with
              | none => simp [pyGet] at hrun
              | bool b => simp [pyGet] at hrun
              | int n => simp [pyGet] at hrun
              | pyFloat s => simp [pyGet] at hrun
              | str s => simp [pyGet] at hrun
              | list xs => simp [pyGet] at hrun
              | dict kvs =>
                  simp only [pyGet, asDict] at hrun
                  cases hga : dGet? kvs "applies_when" with
                  | none =>
                      have hda : dGetD kvs "applies_when" (Val.list []) =
                          Val.list [] := by
                        simp [dGetD, hga]
                      rw [hda, hga] at hrun
                      simp only [Val.truthy, Bool.false_eq_true, if_false] at hrun
                      exact Or.inr (Or.inr (execMainPhase_shape E _ context hrun))
                  | some v =>
                      have hda : dGetD kvs "applies_when" (Val.list []) = v := by
                        simp [dGetD, hga]
                      rw [hda, hga] at hrun
                      cases v with
                      | none =>
                          simp only [Val.truthy, Bool.false_eq_true,
                            if_false] at hrun
                          exact Or.inr (Or.inr
                            (execMainPhase_shape E _ context hrun))
                      | bool b =>
                          by_cases haw : (Val.bool b).truthy = true
                          · simp only [haw, if_true] at hrun
                            simp [pyIter] at hrun
                          · simp only [haw, if_false] at hrun
                            exact Or.inr (Or.inr
                              (execMainPhase_shape E _ context hrun))
                      | int n =>
                          by_cases haw : (Val.int n).truthy = true
                          · simp only [haw, if_true] at hrun
                            simp [pyIter] at hrun
                          · simp only [haw, if_false] at hrun
                            exact Or.inr (Or.inr
                              (execMainPhase_shape E _ context hrun))
                      | pyFloat fs =>
                          by_cases haw : (Val.pyFloat fs).truthy = true
                          · simp only [haw, if_true] at hrun
                            simp [pyIter] at hrun
                          · simp only [haw, if_false] at hrun
                            exact Or.inr (Or.inr
                              (execMainPhase_shape E _ context hrun))
                      | str sv =>
                          by_cases haw : (Val.str sv).truthy = true
                          · simp only [haw, if_true] at hrun
                            cases hit : pyIter (Val.str sv) with
                            | error e => rw [hit] at hrun; simp at hrun
                            | ok conds =>
                                rw [hit] at hrun
                                dsimp only at hrun
                                cases hrc : runConditions E kvs context conds with
                                | error e => rw [hrc] at hrun; simp at hrun
                                | ok co =>
                                    obtain ⟨conds2, o⟩ := co
                                    rw [hrc] at hrun
                                    dsimp only at hrun
                                    cases o with
                                    | some res =>
                                        simp only [Except.ok.injEq] at hrun
                                        obtain ⟨cid, cmsg, hsyn⟩ :=
                                          runConditions_some E kvs context hrc
                                        refine Or.inr (Or.inl ⟨cid, cmsg, ?_⟩)
                                        rw [← hrun]
                                        simpa [asDict] using hsyn
                                    | none =>
                                        exact Or.inr (Or.inr
                                          (execMainPhase_shape E _ context hrun))
                          · simp only [haw, if_false] at hrun
                            exact Or.inr (Or.inr
                              (execMainPhase_shape E _ context hrun))
                      | dict dkvs =>
                          by_cases haw : (Val.dict dkvs).truthy = true
                          · simp only [haw, if_true] at hrun
                            cases hit : pyIter (Val.dict dkvs) with
                            | error e => rw [hit] at hrun; simp at hrun
                            | ok conds =>
                                rw [hit] at hrun
                                dsimp only at hrun
                                cases hrc : runConditions E kvs context conds with
                                | error e => rw [hrc] at hrun; simp at hrun
                                | ok co =>
                                    obtain ⟨conds2, o⟩ := co
                                    rw [hrc] at hrun
                                    dsimp only at hrun
                                    cases o with
                                    | some res =>
                                        simp only [Except.ok.injEq] at hrun
                                        obtain ⟨cid, cmsg, hsyn⟩ :=
                                          runConditions_some E kvs context hrc
                                        refine Or.inr (Or.inl ⟨cid, cmsg, ?_⟩)
                                        rw [← hrun]
                                        simpa [asDict] using hsyn
                                    | none =>
                                        exact Or.inr (Or.inr
                                          (execMainPhase_shape E _ context hrun))
                          · simp only [haw, if_false] at hrun
                            exact Or.inr (Or.inr
                              (execMainPhase_shape E _ context hrun))
                      | list cs =>
                          by_cases haw : (Val.list cs).truthy = true
                          · simp only [haw, if_true] at hrun
                            cases hit : pyIter (Val.list cs) with
                            | error e => rw [hit] at hrun; simp at hrun
                            | ok conds =>
                                rw [hit] at hrun
                                dsimp only at hrun
                                cases hrc : runConditions E kvs context conds with
                                | error e => rw [hrc] at hrun; simp at hrun
                                | ok co =>
                                    obtain ⟨conds2, o⟩ := co
                                    rw [hrc] at hrun
                                    dsimp only at hrun
                                    cases o with
                                    | some res =>
                                        simp only [Except.ok.injEq] at hrun
                                        obtain ⟨cid, cmsg, hsyn⟩ :=
                                          runConditions_some E kvs context hrc
                                        refine Or.inr (Or.inl ⟨cid, cmsg, ?_⟩)
                                        rw [← hrun]
                                        simpa [asDict] using hsyn
                                    | none =>
                                        exact Or.inr (Or.inr
                                          (execMainPhase_shape E _ context hrun))
                          · simp only [haw, if_false] at hrun
                            exact Or.inr (Or.inr
                              (execMainPhase_shape E _ context hrun))


/-- C3: whenever `execute_rule_set` returns a result carrying a
`results` sequence, the `violations` entry is exactly the subsequence of
`results` whose entries have a falsy `pass`, and the top-level `pass`
is `true` iff that subsequence is empty. -/
theorem C3_aggregation (E : Engine) (ruleSet : Val) (context : Ctx)
    (out : ExecOut) (rs : List Val)
    (hrun : executeRuleSet E ruleSet context = .ok out)
    (hres : dGet? (asDict out.result) "results" = some (.list rs)) :
    dGet? (asDict out.result) "violations" =
      some (.list (rs.filter (fun r => !entryPassTruthy r))) ∧
    dGet? (asDict out.result) "pass" =
      some (.bool (rs.filter (fun r => !entryPassTruthy r)).isEmpty) := by
  rcases executeRuleSet_shape E ruleSet context out hrun with
    h | ⟨cid, cmsg, h⟩ | ⟨r4, results, h⟩
  · rw [h] at hres
    simp +decide [invalidRuleSetResult, asDict, dGet?] at hres
  · rw [h] at hres ⊢
    simp only [syntheticResult, asDict] at hres ⊢
    simp +decide [dGet?] at hres
    subst hres
    constructor
    · simp +decide [dGet?, entryPassTruthy, dGetD, Val.truthy, List.filter]
    · simp +decide [dGet?, entryPassTruthy, dGetD, Val.truthy, List.filter]
  · rw [h] at hres ⊢
    simp only [finalResult, asDict] at hres ⊢
    simp +decide [dGet?] at hres
    subst hres
    constructor
    · simp +decide [dGet?]
    · simp +decide [dGet?]


/-- C3 witness: the empty-rules run aggregates an empty violation list
and a passing result. -/
theorem C3_aggregation_witness :
    dGet? (asDict (ExecOut.mk (finalResult [("rules", Val.list [])] [] [])
        (.dict [("rules", .list [])])).result) "violations" =
      some (.list (List.filter (fun r => !entryPassTruthy r) [])) ∧
    dGet? (asDict (ExecOut.mk (finalResult [("rules", Val.list [])] [] [])
        (.dict [("rules", .list [])])).result) "pass" =
      some (.bool (List.filter (fun r => !entryPassTruthy r) []).isEmpty) :=
  C3_aggregation E0 (.dict [("rules", .list [])]) []
    ⟨finalResult [("rules", Val.list [])] [] [], .dict [("rules", .list [])]⟩ []
    (by simp +decide [executeRuleSet, execMainPhase, execRulesPhase, asDict,
      pyIn, dHas, dGet?, dGetD, dSet, pyGet, Val.truthy, pyIter, runRules,
      entryPassTruthy, pure, Except.pure, bind, Except.bind])
    (by simp +decide [finalResult, asDict, dGet?, dGetD])

end RuleSpec
